import Mathlib

/-!
# Verification development for the GLIF command-line client (package `cmd`)

A shallow embedding of the address resolver, the migration check, the
owner/operator signer selection and the `label-account` handler of
`cmd/utils.go` and `cmd/wallet_label_account.go`.

Everything the package reaches outside itself (the chain client, the agent
store, the key stores, the environment, the terminal, the address libraries)
is a field of `World`: a deterministic oracle.  Every call to such an oracle
is recorded, in program order, in the trace of the run, so that statements of
the form "no chain lookup happens" are statements about that trace.
-/

namespace Glif

/-- A Go `error` value, identified by its message; `Option Error` is a Go
`error` result, `none` being `nil`. -/
abbrev Error := String

/-- A Go `error` value where the package compares error values themselves
(`err != util.ErrKeyNotFound`): the identity of the value and its message.
Two values with the same message need not be the same value. -/
structure ErrorValue where
  ident : Nat
  msg : Error
  deriving DecidableEq, Repr

/-! ## Addresses -/

/-- The go-ethereum `common.Address`: 20 bytes, kept as the number they
spell.  The zero value `common.Address{}` is `⟨0⟩`. -/
structure common.Address where
  val : Nat
  deriving DecidableEq, Repr

/-- The zero value `common.Address{}`. -/
def common.Address.zero : common.Address := ⟨0⟩

/-- The `ethtypes.EthAddress` of lotus: another 20-byte address type. -/
structure ethtypes.EthAddress where
  val : Nat
  deriving DecidableEq, Repr

/-- The go-address `address.Address`: a wrapper around the raw byte string
(protocol byte followed by the payload). -/
structure address.Address where
  str : List Nat
  deriving DecidableEq, Repr

/-- The value `address.Undef`, also the zero value `address.Address{}`. -/
def address.Undef : address.Address := ⟨[]⟩

/-- Protocol bytes of go-address. -/
def address.ID : Nat := 0
def address.SECP256K1 : Nat := 1
def address.Actor : Nat := 2
def address.BLS : Nat := 3
def address.Delegated : Nat := 4
def address.Unknown : Nat := 255

/-- The method `Address.Protocol`: the first byte, `Unknown` for the empty address. -/
def address.Address.Protocol (a : address.Address) : Nat :=
  match a.str with
  | [] => address.Unknown
  | b :: _ => b

/-- The method `Address.Empty`: equality with `address.Undef`. -/
def address.Address.Empty (a : address.Address) : Bool :=
  a == address.Undef

/-- A content identifier of an actor code. -/
abbrev Cid := Nat

/-- The part of `types.Actor` read by the package. -/
structure Actor where
  Code : Cid
  deriving DecidableEq, Repr

/-- The two manifest keys looked up by `checkIDNotEVMActorType`. -/
inductive ActorKey where
  | EvmKey
  | EthAccountKey
  deriving DecidableEq, Repr

/-- The go-ethereum `accounts.Account` as built in this package (the URL is
always left at its zero value). -/
structure ethaccounts.Account where
  Address : common.Address
  deriving DecidableEq, Repr

/-- The go-wallet-utils `accounts.Account`: an Ethereum-style account or a
native (Fil) address. -/
structure accounts.Account where
  EthAccount : ethaccounts.Account
  FilAddress : address.Address
  deriving DecidableEq, Repr

/-- The zero value `accounts.Account{}`. -/
def accounts.Account.zero : accounts.Account := ⟨⟨common.Address.zero⟩, address.Undef⟩

/-- A handle on an `accounts.Wallet`. -/
abbrev Wallet := Nat

/-- An `*ecdsa.PrivateKey`. -/
abbrev PrivateKey := Nat

/-- The key roles of `util.KeyType` used by the package. -/
inductive KeyType where
  | OwnerKey
  | OperatorKey
  | RequestKey
  | OwnerProposerKey
  | OwnerApproverKey
  deriving DecidableEq, Repr

/-! ## Runs: outcome and trace -/

/-- Everything a run does to the outside, in program order. -/
inductive Event where
  | log (msg : String)
  | agentGetAddrs (key : KeyType)
  | agentGet (key : String)
  | legacyGetAddrs (key : KeyType)
  | isFunded
  | connect
  | closer
  | stateGetActor (a : address.Address)
  | stateLookupID (a : address.Address)
  | newLedgerHub
  | find (account : accounts.Account)
  | lookupEnv (name : String)
  | unlock (account : ethaccounts.Account) (passphrase : String)
  | askOne (message : String)
  | ksExport (account : ethaccounts.Account)
  | decryptKey
  | accountsGetAddrs (name : String)
  | resolve (s : String)
  | accountsSet (name : String) (value : String)
  | writeConfig
  deriving DecidableEq, Repr

/-- How a piece of code ends: it returns a value, or it goes through
`Exit(code)`, which stores the exit code and ends the goroutine
(`runtime.Goexit`). -/
inductive Outcome (α : Type) where
  | ret (a : α)
  | exit (code : Nat)
  deriving DecidableEq, Repr

/-- A run: how it ended and what it did. -/
structure Run (α : Type) where
  out : Outcome α
  trace : List Event

/-- Sequencing: the continuation runs only if the first part returned. -/
def Run.bind {α β : Type} (m : Run α) (f : α → Run β) : Run β :=
  match m.out with
  | .ret a => ⟨(f a).out, m.trace ++ (f a).trace⟩
  | .exit c => ⟨.exit c, m.trace⟩

instance : Monad Run where
  pure a := ⟨.ret a, []⟩
  bind := Run.bind

/-- Record one event. -/
def emit (e : Event) : Run Unit := ⟨.ret (), [e]⟩

/-- A `defer`red call: it runs when the body ends, whichever way it ends. -/
def Run.deferred {α : Type} (body : Run α) (e : Event) : Run α :=
  ⟨body.out, body.trace ++ [e]⟩

/-- Function `Exit` (utils.go 36-39). -/
def Exit {α : Type} (code : Nat) : Run α := ⟨.exit code, []⟩

/-- Function `logFatal` (utils.go 46-49). -/
def logFatal {α : Type} (arg : String) : Run α := do
  emit (.log arg)
  Exit 1

/-- Function `logFatalf` (utils.go 51-54); the caller passes the formatted text. -/
def logFatalf {α : Type} (formatted : String) : Run α := do
  emit (.log formatted)
  Exit 1

/-- Function `strings.HasPrefix`. -/
def strings.HasPrefix (s p : String) : Bool :=
  p.data.isPrefixOf s.data

/-! ## The outside world -/

/-- The lotus `api.FullNode` handle returned by `ConnectLotusClient`: the two
chain queries of the package. -/
structure FullNode where
  StateGetActor : address.Address → Except Error Actor
  StateLookupID : address.Address → Except Error address.Address

/-- The agent store `util.AgentStore()`. -/
structure AgentStorage where
  GetAddrs : KeyType → Except Error (common.Address × address.Address)
  Get : String → Except Error String
  IsFunded : address.Address → String → Except Error Bool

/-- The legacy plaintext key store `util.KeyStoreLegacy()`. -/
structure KeyStorageLegacy where
  GetAddrs : KeyType → Except Error (common.Address × address.Address)

/-- The encrypted key store `util.KeyStore()` with `keystore.DecryptKey`. -/
structure KeyStore where
  Unlock : ethaccounts.Account → String → Option Error
  Export : ethaccounts.Account → String → String → Except Error String
  DecryptKey : String → String → Except Error PrivateKey

/-- The labeled-account store `util.AccountsStore()`. -/
structure AccountsStorage where
  GetAddrs : String → Except ErrorValue (common.Address × address.Address)

/-- Everything outside the package, as deterministic oracles. -/
structure World where
  /-- Method `common.Address.Hex`, which is also its `String`. -/
  Hex : common.Address → String
  /-- Method `address.Address.String`. -/
  filString : address.Address → String
  /-- Method `ethtypes.EthAddress.String`. -/
  ethString : ethtypes.EthAddress → String
  HexToAddress : String → common.Address
  NewFromString : String → Except Error address.Address
  ParseEthAddress : String → Except Error ethtypes.EthAddress
  /-- Method `EthAddress.ToFilecoinAddress`, with both of its results. -/
  ToFilecoinAddress : ethtypes.EthAddress → address.Address × Option Error
  EthAddressFromFilecoinAddress : address.Address → Except Error ethtypes.EthAddress
  /-- The call `actors.GetActorCodeID(actorstypes.Version(actors.LatestVersion), key)`. -/
  GetActorCodeID : ActorKey → Option Cid
  /-- The call `PoolsSDK.Extern().ConnectLotusClient()`. -/
  ConnectLotusClient : Except Error FullNode
  as : AgentStorage
  ksLegacy : KeyStorageLegacy
  ks : KeyStore
  accountsStore : AccountsStorage
  /-- The conversion `string(key)` of a `util.KeyType`. -/
  keyString : KeyType → String
  /-- The value `util.ErrKeyNotFound`. -/
  ErrKeyNotFound : ErrorValue
  /-- Method `accounts.Account.IsFil`. -/
  IsFil : accounts.Account → Bool
  /-- The call `usbwallet.NewLedgerHub()`: whether a hub was found. -/
  NewLedgerHub : Option Error
  /-- The call `manager.Find(account)`; the flag says whether the manager was
  built with the Ledger hub as a Fil backend. -/
  Find : Bool → accounts.Account → Except Error Wallet
  /-- The call `os.LookupEnv`: `none` when the variable is not set. -/
  LookupEnv : String → Option String
  /-- The call `survey.AskOne` on a password prompt: the answer written to
  the target, `none` when the prompt fails and the target is left untouched. -/
  AskOne : String → Option String
  /-- The call `AddressOrAccountNameToEVM(ctx, s)` (defined elsewhere in the package). -/
  AddressOrAccountNameToEVM : String → Except Error common.Address
  /-- The call `viper.WriteConfig()`. -/
  WriteConfig : Option Error

/-- Modelled from the spec: `util.IsZeroAddress` is not among the sources; a
key is absent from a store when its EVM address is the zero address. -/
def IsZeroAddress (a : common.Address) : Bool :=
  a == common.Address.zero

/-! ## Address resolver (utils.go 56-176) -/

/-- Function `checkIDNotEVMActorType` (utils.go 122-147). -/
def checkIDNotEVMActorType (w : World) (filAddr : address.Address) (lapi : FullNode) :
    Run (Option Error) :=
  if filAddr.Protocol = address.ID then do
    emit (.stateGetActor filAddr)
    match lapi.StateGetActor filAddr with
    | .error err => pure (some err)
    | .ok actor =>
      match w.GetActorCodeID .EvmKey with
      | none => pure (some "actor code not found")
      | some actorCodeEvm =>
        if actor.Code = actorCodeEvm then
          pure (some "Cant pass an ID address of an EVM actor")
        else
          match w.GetActorCodeID .EthAccountKey with
          | none => pure (some "actor code not found")
          | some actorCodeEthAccount =>
            if actor.Code = actorCodeEthAccount then
              pure (some "Cant pass an ID address of an Eth Account")
            else
              pure none
  else
    pure none

/-- Function `parseAddress` (utils.go 149-176). -/
def parseAddress (w : World) (addr : String) (lapi : FullNode) :
    Run (common.Address × Option Error) :=
  if strings.HasPrefix addr "0x" then
    pure (w.HexToAddress addr, none)
  else
    match w.NewFromString addr with
    | .error err => pure (common.Address.zero, some err)
    | .ok filAddr => do
      match (← checkIDNotEVMActorType w filAddr lapi) with
      | some err => pure (common.Address.zero, some err)
      | none =>
        let lookedUp : Run (Except Error address.Address) :=
          if filAddr.Protocol ≠ address.ID ∧ filAddr.Protocol ≠ address.Delegated then do
            emit (.stateLookupID filAddr)
            pure (lapi.StateLookupID filAddr)
          else
            pure (.ok filAddr)
        match (← lookedUp) with
        | .error err => pure (common.Address.zero, some err)
        | .ok filAddr =>
          match w.EthAddressFromFilecoinAddress filAddr with
          | .error err => pure (common.Address.zero, some err)
          | .ok ethAddr => pure (w.HexToAddress (w.ethString ethAddr), none)

/-- Function `ParseAddressToNative` (utils.go 56-85). -/
def ParseAddressToNative (w : World) (addr : String) :
    Run (address.Address × Option Error) := do
  emit .connect
  match w.ConnectLotusClient with
  | .error err => pure (address.Undef, some err)
  | .ok lapi =>
    Run.deferred
      (if strings.HasPrefix addr "0x" then
        match w.ParseEthAddress addr with
        | .error err => pure (address.Undef, some err)
        | .ok ethAddr => pure (w.ToFilecoinAddress ethAddr)
      else
        match w.NewFromString addr with
        | .error err => pure (address.Undef, some err)
        | .ok filAddr => do
          match (← checkIDNotEVMActorType w filAddr lapi) with
          | some err => pure (address.Undef, some err)
          | none => pure (filAddr, none))
      .closer

/-- Function `ParseAddressToEVM` (utils.go 87-95). -/
def ParseAddressToEVM (w : World) (addr : String) :
    Run (common.Address × Option Error) := do
  emit .connect
  match w.ConnectLotusClient with
  | .error err => pure (common.Address.zero, some err)
  | .ok lapi => Run.deferred (parseAddress w addr lapi) .closer

/-- Function `ToMinerID` (utils.go 97-119). -/
def ToMinerID (w : World) (addr : String) : Run (address.Address × Option Error) :=
  match w.NewFromString addr with
  | .error err => pure (address.Undef, some err)
  | .ok minerAddr =>
    if minerAddr.Protocol = address.ID then
      pure (minerAddr, none)
    else do
      emit .connect
      match w.ConnectLotusClient with
      | .error err => pure (address.Undef, some err)
      | .ok lapi =>
        Run.deferred
          (do
            emit (.stateLookupID minerAddr)
            match lapi.StateLookupID minerAddr with
            | .error err => pure (address.Undef, some err)
            | .ok idAddr => pure (idAddr, none))
          .closer

/-! ## Migration check (utils.go 422-452) -/

/-- The error value `notMigratedError` of `checkWalletMigrated`. -/
def notMigratedError : Error :=
  "wallet not migrated to encrypted keystore. Please run \"glif wallet migrate\""

/-- The error `fmt.Errorf("missing %s key in legacy keys.toml", string(key))`. -/
def missingKeyError (w : World) (key : KeyType) : Error :=
  "missing " ++ w.keyString key ++ " key in legacy keys.toml"

/-- The loop `for _, key := range keys` of `checkWalletMigrated`
(utils.go 434-449), followed by the final `return nil`. -/
def checkWalletMigrated.loop (w : World) : List KeyType → Run (Option Error)
  | [] => pure none
  | key :: rest => do
    emit (.agentGetAddrs key)
    match w.as.GetAddrs key with
    | .error err => pure (some err)
    | .ok (newAddr, newFilAddr) =>
      if IsZeroAddress newAddr && newFilAddr.Empty then do
        emit (.legacyGetAddrs key)
        match w.ksLegacy.GetAddrs key with
        | .error err => pure (some err)
        | .ok (oldAddr, _) =>
          if IsZeroAddress oldAddr then
            pure (some (missingKeyError w key))
          else
            pure (some notMigratedError)
      else
        checkWalletMigrated.loop w rest

/-- The slice `keys` of `checkWalletMigrated` (utils.go 428-432). -/
def checkWalletMigrated.keys : List KeyType :=
  [.OwnerKey, .OperatorKey, .RequestKey]

/-- Function `checkWalletMigrated` (utils.go 422-452). -/
def checkWalletMigrated (w : World) : Run (Option Error) :=
  checkWalletMigrated.loop w checkWalletMigrated.keys

/-! ## Signer selection (utils.go 194-330, 366-380) -/

/-- The eight results of `commonOwnerOrOperatorSetup`. -/
structure SetupResult where
  agentAddr : common.Address
  wallet : Option Wallet
  account : accounts.Account
  passphrase : String
  proposer : address.Address
  approver : address.Address
  requesterKey : Option PrivateKey
  err : Option Error
  deriving DecidableEq, Repr

/-- The statement `return common.Address{}, nil, accounts.Account{}, "",
address.Address{}, address.Address{}, nil, err`. -/
def SetupResult.fail (err : Error) : SetupResult :=
  { agentAddr := common.Address.zero, wallet := none, account := accounts.Account.zero,
    passphrase := "", proposer := address.Undef, approver := address.Undef,
    requesterKey := none, err := some err }

/-- Function `getAgentAddress` (utils.go 366-380). -/
def getAgentAddress (w : World) : Run (common.Address × Option Error) := do
  emit (.agentGet "address")
  match w.as.Get "address" with
  | .error err => pure (common.Address.zero, some err)
  | .ok agentAddrStr =>
    if agentAddrStr = "" then
      pure (common.Address.zero,
        some "Did you forget to create your agent or specify an address? Try `glif agent id --address <address>`")
    else
      pure (w.HexToAddress agentAddrStr, none)

/-- Function `getRequesterKey` (utils.go 315-330). -/
def getRequesterKey (w : World) : Run (Option PrivateKey × Option Error) := do
  emit (.agentGetAddrs .RequestKey)
  match w.as.GetAddrs .RequestKey with
  | .error err => pure (none, some err)
  | .ok (requesterAddr, _) =>
    let requesterAccount : ethaccounts.Account := { Address := requesterAddr }
    emit (.ksExport requesterAccount)
    match w.ks.Export requesterAccount "" "" with
    | .error err => pure (none, some err)
    | .ok requesterKeyJSON =>
      emit .decryptKey
      match w.ks.DecryptKey requesterKeyJSON "" with
      | .error err => pure (none, some err)
      | .ok rk => pure (some rk, none)

/-- The `switch from` of `commonOwnerOrOperatorSetup` (utils.go 229-252):
the pair `(fromEthAddress, fromFilAddress)` it leaves behind, or the error
it returns with.  The cases are tried in source order. -/
def selectSigner (w : World) (fromArg : String) (opEvm : common.Address)
    (opFevm : address.Address) (owEvm : common.Address) (owFevm : address.Address) :
    Run (Except Error (common.Address × address.Address)) :=
  if fromArg = "" ∨ fromArg = w.Hex opEvm ∨ fromArg = w.filString opFevm then do
    emit .isFunded
    match w.as.IsFunded opFevm (w.Hex opEvm) with
    | .error err => pure (.error err)
    | .ok funded =>
      if funded then
        pure (.ok (opEvm, address.Undef))
      else do
        emit (.log "operator not funded, falling back to owner address")
        pure (.ok (owEvm, address.Undef))
  else if fromArg = w.Hex owEvm ∨ fromArg = w.filString owFevm then
    if owFevm.Protocol = address.Delegated then
      pure (.ok (owEvm, address.Undef))
    else
      pure (.ok (common.Address.zero, owFevm))
  else
    pure (.error "invalid from address")

/-- The construction of `account` (utils.go 262-266). -/
def mkAccount (fromEthAddress : common.Address) (fromFilAddress : address.Address) :
    accounts.Account :=
  if !fromFilAddress.Empty then
    { EthAccount := ⟨common.Address.zero⟩, FilAddress := fromFilAddress }
  else
    { EthAccount := ⟨fromEthAddress⟩, FilAddress := address.Undef }

/-- The call `os.LookupEnv(name)` with its two results. -/
def LookupEnv (w : World) (name : String) : String × Bool :=
  match w.LookupEnv name with
  | some v => (v, true)
  | none => ("", false)

/-- The passphrase block of `commonOwnerOrOperatorSetup` (utils.go 285-305):
the value of `passphrase` after it, or the error it returns with. -/
def obtainPassphrase (w : World) (account : accounts.Account)
    (fromEthAddress : common.Address) (fromFilAddress : address.Address)
    (owEvm opEvm : common.Address) : Run (Except Error String) :=
  if fromFilAddress.Empty then do
    let ((passphrase, envSet), message) ←
      (if fromEthAddress = owEvm then do
        emit (.lookupEnv "GLIF_OWNER_PASSPHRASE")
        pure (LookupEnv w "GLIF_OWNER_PASSPHRASE", "Owner key passphrase")
      else if fromEthAddress = opEvm then do
        emit (.lookupEnv "GLIF_OPERATOR_PASSPHRASE")
        pure (LookupEnv w "GLIF_OPERATOR_PASSPHRASE", "Operator key passphrase")
      else
        pure (("", false), "") : Run ((String × Bool) × String))
    if !envSet then do
      emit (.unlock account.EthAccount "")
      match w.ks.Unlock account.EthAccount "" with
      | none => pure (.ok passphrase)
      | some _ => do
        emit (.askOne message)
        let passphrase := (w.AskOne message).getD passphrase
        if passphrase = "" then
          pure (.error "Aborted")
        else
          pure (.ok passphrase)
    else
      pure (.ok passphrase)
  else
    pure (.ok "")

/-- The part of `commonOwnerOrOperatorSetup` that follows the `switch`
(utils.go 257-313): agent address, account, wallet lookup, passphrase,
requester key, and the final `return`. -/
def signerSetup (w : World) (opEvm owEvm : common.Address) (proposer approver : address.Address)
    (fromEthAddress : common.Address) (fromFilAddress : address.Address) : Run SetupResult := do
  match (← getAgentAddress w) with
  | (_, some err) => pure (.fail err)
  | (agentAddr, none) =>
    let account := mkAccount fromEthAddress fromFilAddress
    let hasLedger ← (if w.IsFil account then do
        emit .newLedgerHub
        match w.NewLedgerHub with
        | some _ => logFatal "Ledger not found"
        | none => pure true
      else
        pure false : Run Bool)
    emit (.find account)
    match w.Find hasLedger account with
    | .error err => pure (.fail err)
    | .ok wallet =>
      match (← obtainPassphrase w account fromEthAddress fromFilAddress owEvm opEvm) with
      | .error err => pure (.fail err)
      | .ok passphrase =>
        match (← getRequesterKey w) with
        | (_, some err) => pure (.fail err)
        | (requesterKey, none) =>
          pure { agentAddr := agentAddr, wallet := some wallet, account := account,
                 passphrase := passphrase, proposer := proposer, approver := approver,
                 requesterKey := requesterKey, err := none }

/-- Function `commonOwnerOrOperatorSetup` (utils.go 194-313): the migration
check and the address reads (195-222), the `switch from` (`selectSigner`,
224-252) and the rest (`signerSetup`, 257-313).  The two `if err != nil`
tests at lines 241 and 253 read a variable that is `nil` whenever they are
reached and are left out. -/
def commonOwnerOrOperatorSetup (w : World) (fromArg : String) : Run SetupResult := do
  match (← checkWalletMigrated w) with
  | some err => pure (.fail err)
  | none =>
    emit (.agentGetAddrs .OperatorKey)
    match w.as.GetAddrs .OperatorKey with
    | .error err => pure (.fail err)
    | .ok (opEvm, opFevm) =>
      emit (.agentGetAddrs .OwnerProposerKey)
      let proposer ← (match w.as.GetAddrs .OwnerProposerKey with
        | .error err => logFatal err
        | .ok (_, proposer) => pure proposer : Run address.Address)
      emit (.agentGetAddrs .OwnerApproverKey)
      let approver ← (match w.as.GetAddrs .OwnerApproverKey with
        | .error err => logFatal err
        | .ok (_, approver) => pure approver : Run address.Address)
      emit (.agentGetAddrs .OwnerKey)
      match w.as.GetAddrs .OwnerKey with
      | .error err => pure (.fail err)
      | .ok (owEvm, owFevm) =>
        match (← selectSigner w fromArg opEvm opFevm owEvm owFevm) with
        | .error err => pure (.fail err)
        | .ok (fromEthAddress, fromFilAddress) =>
          signerSetup w opEvm owEvm proposer approver fromEthAddress fromFilAddress

/-! ## The `label-account` handler (wallet_label_account.go 15-48) -/

/-- The `Run` function of `labelAccountCmd` on its two positional arguments
(`cobra.ExactArgs(2)`). -/
def labelAccountCmd (w : World) (arg0 arg1 : String) : Run Unit := do
  let name := arg0
  emit (.accountsGetAddrs name)
  match w.accountsStore.GetAddrs name with
  | .ok _ => logFatalf (name ++ " account already created\n")
  | .error err =>
    if err ≠ w.ErrKeyNotFound then
      logFatal err.msg
    else
      pure ()
  emit (.resolve arg1)
  match w.AddressOrAccountNameToEVM arg1 with
  | .error err => logFatal err
  | .ok addr =>
    emit (.accountsSet name (w.Hex addr))
    emit .writeConfig
    match w.WriteConfig with
    | some err => logFatal err
    | none => pure ()
    if w.Hex addr ≠ arg1 then
      emit (.log ("Transforming " ++ arg1 ++ " into its EVM representation: " ++ w.Hex addr ++ "\n"))
    emit (.log ("Successfully added new read-only account to wallet - " ++ w.Hex addr ++ "\n"))

/-! ## Reading traces -/

/-- A chain-client round trip: `StateGetActor` or `StateLookupID`. -/
def Event.isChainQuery : Event → Bool
  | .stateGetActor _ => true
  | .stateLookupID _ => true
  | _ => false

/-- A wallet lookup, an environment read, an unlock or a prompt. -/
def Event.isKeyAccess : Event → Bool
  | .find _ => true
  | .lookupEnv _ => true
  | .unlock _ _ => true
  | .askOne _ => true
  | _ => false

/-- A call of the address resolver, a write of a name-to-address mapping or
a write of the configuration. -/
def Event.isLabelEffect : Event → Bool
  | .resolve _ => true
  | .accountsSet _ _ => true
  | .writeConfig => true
  | _ => false

/-! ## Sample worlds -/

/-- A chain node that knows the actor of `f05` (an EVM actor, code 10) and of
`f06` (an Eth account, code 11), and the ID address of `f17`. -/
def sampleNode : FullNode where
  StateGetActor a :=
    match a.str with
    | [0, 5] => .ok ⟨10⟩
    | [0, 6] => .ok ⟨11⟩
    | [0, 8] => .ok ⟨12⟩
    | _ => .error "actor not found"
  StateLookupID a :=
    match a.str with
    | [1, 7] => .ok ⟨[0, 8]⟩
    | _ => .error "actor not found"

/-- A migrated wallet: owner `0x0001`, operator `0x0002` (funded), requester
`0x0003`, all stored with their delegated native form; an empty legacy store;
no passphrase variable set; keys that unlock with the empty passphrase. -/
def sampleWorld : World where
  Hex a :=
    match a.val with
    | 0 => "0x0000"
    | 1 => "0x0001"
    | 2 => "0x0002"
    | 3 => "0x0003"
    | 5 => "0x0005"
    | _ => "0x0009"
  filString a :=
    match a.str with
    | [] => "<empty>"
    | [0, 5] => "f05"
    | [0, 6] => "f06"
    | [0, 8] => "f08"
    | [1, 7] => "f17"
    | [4, 1] => "f410f1"
    | [4, 2] => "f410f2"
    | [4, 3] => "f410f3"
    | _ => "f099"
  ethString e :=
    match e.val with
    | 0 => "0x0000"
    | 1 => "0x0001"
    | 2 => "0x0002"
    | 3 => "0x0003"
    | _ => "0x0009"
  HexToAddress s :=
    if s = "0x0001" then ⟨1⟩
    else if s = "0x0002" then ⟨2⟩
    else if s = "0x0003" then ⟨3⟩
    else if s = "0x0009" then ⟨9⟩
    else ⟨0⟩
  NewFromString s :=
    if s = "f05" then .ok ⟨[0, 5]⟩
    else if s = "f06" then .ok ⟨[0, 6]⟩
    else if s = "f08" then .ok ⟨[0, 8]⟩
    else if s = "f17" then .ok ⟨[1, 7]⟩
    else if s = "f410f1" then .ok ⟨[4, 1]⟩
    else if s = "f410f2" then .ok ⟨[4, 2]⟩
    else .error "unknown address network"
  ParseEthAddress s :=
    if s = "0x0001" then .ok ⟨1⟩
    else if s = "0x0002" then .ok ⟨2⟩
    else .error "invalid address"
  ToFilecoinAddress e := (⟨[4, e.val]⟩, none)
  EthAddressFromFilecoinAddress a :=
    match a.str with
    | [0, n] => .ok ⟨n⟩
    | [4, n] => .ok ⟨n⟩
    | _ => .error "not an eth address"
  GetActorCodeID k :=
    match k with
    | .EvmKey => some 10
    | .EthAccountKey => some 11
  ConnectLotusClient := .ok sampleNode
  as :=
    { GetAddrs := fun k =>
        match k with
        | .OwnerKey => .ok (⟨1⟩, ⟨[4, 1]⟩)
        | .OperatorKey => .ok (⟨2⟩, ⟨[4, 2]⟩)
        | .RequestKey => .ok (⟨3⟩, ⟨[4, 3]⟩)
        | .OwnerProposerKey => .ok (⟨0⟩, ⟨[]⟩)
        | .OwnerApproverKey => .ok (⟨0⟩, ⟨[]⟩)
      Get := fun _ => .ok "0x0009"
      IsFunded := fun _ _ => .ok true }
  ksLegacy := { GetAddrs := fun _ => .ok (⟨0⟩, ⟨[]⟩) }
  ks :=
    { Unlock := fun _ _ => none
      Export := fun _ _ _ => .ok "json"
      DecryptKey := fun _ _ => .ok 42 }
  accountsStore :=
    { GetAddrs := fun name =>
        if name = "alice" then .ok (⟨1⟩, ⟨[4, 1]⟩) else .error ⟨0, "key not found"⟩ }
  keyString k :=
    match k with
    | .OwnerKey => "owner"
    | .OperatorKey => "operator"
    | .RequestKey => "request"
    | .OwnerProposerKey => "owner-proposer"
    | .OwnerApproverKey => "owner-approver"
  ErrKeyNotFound := ⟨0, "key not found"⟩
  IsFil a := !a.FilAddress.Empty
  NewLedgerHub := none
  Find _ _ := .ok 7
  LookupEnv _ := none
  AskOne _ := some "secret"
  AddressOrAccountNameToEVM s :=
    if s = "0x0001" then .ok ⟨1⟩ else .error "invalid address"
  WriteConfig := none

/-- A wallet before migration: the new store is empty; the legacy store
holds an operator key but no owner key. -/
def unmigratedWorld : World :=
  { sampleWorld with
    as :=
      { GetAddrs := fun _ => .ok (⟨0⟩, ⟨[]⟩)
        Get := fun _ => .ok ""
        IsFunded := fun _ _ => .ok false }
    ksLegacy :=
      { GetAddrs := fun k =>
          match k with
          | .OperatorKey => .ok (⟨2⟩, ⟨[]⟩)
          | _ => .ok (⟨0⟩, ⟨[]⟩) } }

/-- A wallet whose owner key alone has been migrated: the new store holds the
owner; the operator is still only in the legacy store. -/
def halfMigratedWorld : World :=
  { sampleWorld with
    as :=
      { GetAddrs := fun k =>
          match k with
          | .OwnerKey => .ok (⟨1⟩, ⟨[4, 1]⟩)
          | _ => .ok (⟨0⟩, ⟨[]⟩)
        Get := fun _ => .ok ""
        IsFunded := fun _ _ => .ok false }
    ksLegacy :=
      { GetAddrs := fun k =>
          match k with
          | .OperatorKey => .ok (⟨2⟩, ⟨[]⟩)
          | _ => .ok (⟨0⟩, ⟨[]⟩) } }

/-- A wallet whose owner and operator are one and the same secp256k1 key,
stored with its EVM address `0x0005` and its native address `f17`. -/
def sameKeyWorld : World :=
  { sampleWorld with
    as :=
      { GetAddrs := fun k =>
          match k with
          | .OwnerKey => .ok (⟨5⟩, ⟨[1, 7]⟩)
          | .OperatorKey => .ok (⟨5⟩, ⟨[1, 7]⟩)
          | .RequestKey => .ok (⟨3⟩, ⟨[4, 3]⟩)
          | .OwnerProposerKey => .ok (⟨0⟩, ⟨[]⟩)
          | .OwnerApproverKey => .ok (⟨0⟩, ⟨[]⟩)
        Get := fun _ => .ok "0x0009"
        IsFunded := fun _ _ => .ok true } }

/-- A wallet whose owner is the Ledger key `f17` and whose operator is the
key `0x0002`. -/
def ledgerOwnerWorld : World :=
  { sampleWorld with
    as :=
      { GetAddrs := fun k =>
          match k with
          | .OwnerKey => .ok (⟨0⟩, ⟨[1, 7]⟩)
          | .OperatorKey => .ok (⟨2⟩, ⟨[4, 2]⟩)
          | .RequestKey => .ok (⟨3⟩, ⟨[4, 3]⟩)
          | .OwnerProposerKey => .ok (⟨0⟩, ⟨[]⟩)
          | .OwnerApproverKey => .ok (⟨0⟩, ⟨[]⟩)
        Get := fun _ => .ok "0x0009"
        IsFunded := fun _ _ => .ok true } }

/-- A wallet whose owner and operator are one and the same key `0x0001`,
run with only `GLIF_OPERATOR_PASSPHRASE` set. -/
def sharedKeyWorld : World :=
  { sampleWorld with
    as :=
      { GetAddrs := fun k =>
          match k with
          | .OwnerKey => .ok (⟨1⟩, ⟨[4, 1]⟩)
          | .OperatorKey => .ok (⟨1⟩, ⟨[4, 1]⟩)
          | .RequestKey => .ok (⟨3⟩, ⟨[4, 3]⟩)
          | .OwnerProposerKey => .ok (⟨0⟩, ⟨[]⟩)
          | .OwnerApproverKey => .ok (⟨0⟩, ⟨[]⟩)
        Get := fun _ => .ok "0x0009"
        IsFunded := fun _ _ => .ok true }
    LookupEnv := fun name => if name = "GLIF_OPERATOR_PASSPHRASE" then some "pw" else none }

/-- The wallet of `sampleWorld`, run with `GLIF_OPERATOR_PASSPHRASE` set. -/
def envWorld : World :=
  { sampleWorld with
    LookupEnv := fun name => if name = "GLIF_OPERATOR_PASSPHRASE" then some "pw" else none }

/-- The wallet of `sampleWorld` with a labeled-account store whose lookups
fail with an error that has the text of `util.ErrKeyNotFound` but is another
value. -/
def sameTextErrorWorld : World :=
  { sampleWorld with
    accountsStore := { GetAddrs := fun _ => .error ⟨1, "key not found"⟩ } }

/-! ## Store predicates used by the statements -/

/-- Key `k` is absent from the new store: the read succeeds with a zero EVM
address and an empty native address. -/
def absentNew (w : World) (k : KeyType) : Bool :=
  match w.as.GetAddrs k with
  | .ok (a, f) => IsZeroAddress a && f.Empty
  | .error _ => false

/-- Key `k` is present in the new store: the read succeeds with a non-zero
EVM address or a non-empty native address. -/
def presentNew (w : World) (k : KeyType) : Bool :=
  match w.as.GetAddrs k with
  | .ok (a, f) => !(IsZeroAddress a && f.Empty)
  | .error _ => false

/-- Key `k` is absent from the legacy store: the read succeeds with a zero address. -/
def absentLegacy (w : World) (k : KeyType) : Bool :=
  match w.ksLegacy.GetAddrs k with
  | .ok (a, _) => IsZeroAddress a
  | .error _ => false

/-- Key `k` is present in the legacy store: the read succeeds with a non-zero address. -/
def presentLegacy (w : World) (k : KeyType) : Bool :=
  match w.ksLegacy.GetAddrs k with
  | .ok (a, _) => !IsZeroAddress a
  | .error _ => false

/-- All reads of the two stores succeed. -/
def readsSucceed (w : World) : Prop :=
  (∀ k, ∃ r, w.as.GetAddrs k = .ok r) ∧ (∀ k, ∃ r, w.ksLegacy.GetAddrs k = .ok r)


/-- The trace of a connection that was opened: the open, at most one chain
round trip, the release, in this order and nothing else. -/
def isScoped : List Event → Bool
  | [.connect, .closer] => true
  | [.connect, e, .closer] => e.isChainQuery
  | _ => false

/-- A read of the agent store or of the legacy key store. -/
def Event.isStoreRead : Event → Bool
  | .agentGetAddrs _ => true
  | .agentGet _ => true
  | .legacyGetAddrs _ => true
  | _ => false

/-- A step of the passphrase block: an environment read, an unlock or a prompt. -/
def Event.isPassphraseStep : Event → Bool
  | .lookupEnv _ => true
  | .unlock _ _ => true
  | .askOne _ => true
  | _ => false

/-- The migration check and the four address reads of
`commonOwnerOrOperatorSetup` (utils.go 195-222) succeed, with these values. -/
structure SetupReads (w : World) (opEvm : common.Address) (opFevm : address.Address)
    (owEvm : common.Address) (owFevm : address.Address)
    (proposer approver : address.Address) : Prop where
  migrated : (checkWalletMigrated w).out = .ret none
  operator : w.as.GetAddrs .OperatorKey = .ok (opEvm, opFevm)
  proposer : ∃ a, w.as.GetAddrs .OwnerProposerKey = .ok (a, proposer)
  approver : ∃ a, w.as.GetAddrs .OwnerApproverKey = .ok (a, approver)
  owner : w.as.GetAddrs .OwnerKey = .ok (owEvm, owFevm)

/-- The events of the migration check and of the four address reads. -/
def setupReadsTrace (w : World) : List Event :=
  (checkWalletMigrated w).trace ++
    [.agentGetAddrs .OperatorKey, .agentGetAddrs .OwnerProposerKey,
     .agentGetAddrs .OwnerApproverKey, .agentGetAddrs .OwnerKey]

/-- The result of the last two stages of `signerSetup`: the error of the
passphrase block, else the error of the requester key, else the full result. -/
def stagesResult (x : Except Error String) (e : Option Error)
    (full : String → SetupResult) : SetupResult :=
  match x with
  | .error err => .fail err
  | .ok p =>
    match e with
    | some err => .fail err
    | none => full p

/-- The events of the requester key stage: none when the passphrase block failed. -/
def stagesTail (x : Except Error String) (tq : List Event) : List Event :=
  match x with
  | .error _ => []
  | .ok _ => tq

/-- A read of the legacy key store. -/
def Event.isLegacyRead : Event → Bool
  | .legacyGetAddrs _ => true
  | _ => false

/-! ## Theorems -/

/-! ### Runs -/

theorem Run.bind_out_ret {α β : Type} (m : Run α) (f : α → Run β) (a : α)
    (h : m.out = .ret a) : (m >>= f).out = (f a).out := by
  show (Run.bind m f).out = _
  simp [Run.bind, h]

theorem Run.emit_bind {β : Type} (e : Event) (f : Unit → Run β) :
    (emit e >>= f) = ⟨(f ()).out, e :: (f ()).trace⟩ := by
  show Run.bind (emit e) f = _
  simp [Run.bind, emit]

theorem Run.pure_eq {α : Type} (a : α) : (pure a : Run α) = ⟨.ret a, []⟩ := rfl

/-! ### Migration check -/

theorem checkWalletMigrated.loop_out_skip (w : World) (pre rest : List KeyType)
    (h : ∀ k ∈ pre, presentNew w k = true) :
    (checkWalletMigrated.loop w (pre ++ rest)).out = (checkWalletMigrated.loop w rest).out := by
  induction pre with
  | nil => rfl
  | cons k pre ih =>
    have hk := h k (List.mem_cons_self _ _)
    have ih' := ih (fun k' hk' => h k' (List.mem_cons_of_mem _ hk'))
    simp only [List.cons_append, checkWalletMigrated.loop, Run.emit_bind]
    unfold presentNew at hk
    cases hg : w.as.GetAddrs k with
    | error e => simp [hg] at hk
    | ok r =>
      obtain ⟨a, f⟩ := r
      simp [hg] at hk
      have hc : ¬ (IsZeroAddress a = true ∧ f.Empty = true) := by
        rcases hk with h1 | h1 <;> simp [h1]
      simp [hg, hc, ih']

theorem checkWalletMigrated.loop_out_absent (w : World) (k : KeyType) (rest : List KeyType)
    (h : absentNew w k = true) :
    (checkWalletMigrated.loop w (k :: rest)).out =
      match w.ksLegacy.GetAddrs k with
      | .error err => .ret (some err)
      | .ok (oldAddr, _) =>
        if IsZeroAddress oldAddr then .ret (some (missingKeyError w k))
        else .ret (some notMigratedError) := by
  unfold absentNew at h
  simp only [checkWalletMigrated.loop, Run.emit_bind]
  cases hg : w.as.GetAddrs k with
  | error e => simp [hg] at h
  | ok r =>
    obtain ⟨a, f⟩ := r
    simp [hg] at h
    simp only [h.1, h.2, Bool.and_self, if_true, Run.emit_bind]
    cases hl : w.ksLegacy.GetAddrs k with
    | error e => rfl
    | ok r' =>
      obtain ⟨oa, of⟩ := r'
      by_cases hz : IsZeroAddress oa = true <;> simp [hz, Run.pure_eq]

/-- Claim C1, as amended: let `k` be the first role, in the order owner, operator,
requester, that is absent from the new store (every role before it is present
there).  If `k` is present in the legacy store the check returns the
"wallet not migrated" error; if `k` is absent from the legacy store it returns
the "missing <k> key in legacy keys.toml" error naming `k`. -/
theorem checkWalletMigrated_first_absent (w : World) (pre post : List KeyType) (k : KeyType)
    (hkeys : checkWalletMigrated.keys = pre ++ k :: post)
    (hpre : ∀ k' ∈ pre, presentNew w k' = true)
    (hk : absentNew w k = true) :
    (presentLegacy w k = true →
      (checkWalletMigrated w).out = .ret (some notMigratedError)) ∧
    (absentLegacy w k = true →
      (checkWalletMigrated w).out = .ret (some (missingKeyError w k))) := by
  have hout : (checkWalletMigrated w).out = (checkWalletMigrated.loop w (k :: post)).out := by
    unfold checkWalletMigrated
    rw [hkeys]
    exact checkWalletMigrated.loop_out_skip w pre (k :: post) hpre
  rw [hout, checkWalletMigrated.loop_out_absent w k post hk]
  unfold presentLegacy absentLegacy
  cases hl : w.ksLegacy.GetAddrs k with
  | error e => simp
  | ok r =>
    obtain ⟨oa, of⟩ := r
    constructor
    · intro h
      simp at h
      simp [h]
    · intro h
      simp at h
      simp [h]

/-- Witness of `checkWalletMigrated_first_absent`: with the owner migrated and
the operator only in the legacy store, the operator is the first absent role
and the check reports a wallet that is not migrated; with an empty new store
and no owner in the legacy store, the owner is the first absent role and the
check reports the missing owner key. -/
theorem checkWalletMigrated_first_absent_witness :
    (checkWalletMigrated halfMigratedWorld).out = .ret (some notMigratedError) ∧
    (checkWalletMigrated unmigratedWorld).out =
      .ret (some (missingKeyError unmigratedWorld .OwnerKey)) :=
  ⟨(checkWalletMigrated_first_absent halfMigratedWorld [.OwnerKey] [.RequestKey] .OperatorKey
      rfl (by intro k hk; simp at hk; subst hk; rfl) rfl).1 rfl,
   (checkWalletMigrated_first_absent unmigratedWorld [] [.OperatorKey, .RequestKey] .OwnerKey
      rfl (by intro k hk; simp at hk) rfl).2 rfl⟩

/-- Claim C1, as stated, fails: in `unmigratedWorld` every store read succeeds
and the operator is absent from the new store and present in the legacy
store, yet the check does not return the "wallet not migrated" error: the
owner, absent from both stores, is met first and the check returns
"missing owner key in legacy keys.toml". -/
theorem checkWalletMigrated_any_role_counterexample :
    readsSucceed unmigratedWorld ∧
    absentNew unmigratedWorld .OperatorKey = true ∧
    presentLegacy unmigratedWorld .OperatorKey = true ∧
    (checkWalletMigrated unmigratedWorld).out ≠ .ret (some notMigratedError) ∧
    (checkWalletMigrated unmigratedWorld).out =
      .ret (some "missing owner key in legacy keys.toml") := by
  refine ⟨⟨fun k => ⟨_, rfl⟩, fun k => ?_⟩, rfl, rfl, ?_, rfl⟩
  · cases k <;> exact ⟨_, rfl⟩
  · decide

/-! ### Address resolver: rejected actors and `0x` strings -/

theorem checkIDNotEVMActorType_of_not_ID (w : World) (a : address.Address) (lapi : FullNode)
    (h : a.Protocol ≠ address.ID) :
    checkIDNotEVMActorType w a lapi = ⟨.ret none, []⟩ := by
  unfold checkIDNotEVMActorType
  rw [if_neg h]
  rfl

theorem checkIDNotEVMActorType_of_evm_code (w : World) (a : address.Address) (lapi : FullNode)
    (actor : Actor) (cEvm : Cid)
    (hID : a.Protocol = address.ID)
    (hactor : lapi.StateGetActor a = .ok actor)
    (hEvm : w.GetActorCodeID .EvmKey = some cEvm)
    (hcode : actor.Code = cEvm ∨ w.GetActorCodeID .EthAccountKey = some actor.Code) :
    ∃ e, (e = "Cant pass an ID address of an EVM actor" ∨
          e = "Cant pass an ID address of an Eth Account") ∧
      checkIDNotEVMActorType w a lapi = ⟨.ret (some e), [.stateGetActor a]⟩ := by
  unfold checkIDNotEVMActorType
  rw [if_pos hID]
  simp only [Run.emit_bind, hactor, hEvm]
  by_cases hc : actor.Code = cEvm
  · exact ⟨_, Or.inl rfl, by simp [hc, Run.pure_eq]⟩
  · rcases hcode with h | h
    · exact absurd h hc
    · exact ⟨_, Or.inr rfl, by simp [hc, h, Run.pure_eq]⟩

/-- Claim C2: for a string that is not in `0x` form and parses to an
ID-protocol address whose on-chain actor code is the EVM actor code or the
EthAccount actor code, `parseAddress`, `ParseAddressToEVM` and
`ParseAddressToNative` all return the zero (undefined) address together with
the error "Cant pass an ID address of an EVM actor" or "Cant pass an ID
address of an Eth Account"; and `checkIDNotEVMActorType` returns nil with an
empty trace (no chain query) for every address whose protocol is not ID. -/
theorem resolvers_reject_ID_of_EVM_actor (w : World) (addr : String)
    (filAddr : address.Address) (lapi : FullNode) (actor : Actor) (cEvm : Cid)
    (h0x : strings.HasPrefix addr "0x" = false)
    (hparse : w.NewFromString addr = .ok filAddr)
    (hID : filAddr.Protocol = address.ID)
    (hconn : w.ConnectLotusClient = .ok lapi)
    (hactor : lapi.StateGetActor filAddr = .ok actor)
    (hEvm : w.GetActorCodeID .EvmKey = some cEvm)
    (hcode : actor.Code = cEvm ∨ w.GetActorCodeID .EthAccountKey = some actor.Code) :
    (∃ e, (e = "Cant pass an ID address of an EVM actor" ∨
            e = "Cant pass an ID address of an Eth Account") ∧
        (parseAddress w addr lapi).out = .ret (common.Address.zero, some e) ∧
        (ParseAddressToEVM w addr).out = .ret (common.Address.zero, some e) ∧
        (ParseAddressToNative w addr).out = .ret (address.Undef, some e)) ∧
    (∀ (a : address.Address) (node : FullNode), a.Protocol ≠ address.ID →
        checkIDNotEVMActorType w a node = ⟨.ret none, []⟩) := by
  refine ⟨?_, fun a node h => checkIDNotEVMActorType_of_not_ID w a node h⟩
  obtain ⟨e, he, hchk⟩ :=
    checkIDNotEVMActorType_of_evm_code w filAddr lapi actor cEvm hID hactor hEvm hcode
  have hp : (parseAddress w addr lapi).out = .ret (common.Address.zero, some e) := by
    unfold parseAddress
    simp only [h0x, hparse, Bool.false_eq_true, if_false]
    rw [Run.bind_out_ret _ _ (some e) (by rw [hchk])]
    rfl
  refine ⟨e, he, hp, ?_, ?_⟩
  · unfold ParseAddressToEVM
    simp only [Run.emit_bind, hconn, Run.deferred, hp]
  · unfold ParseAddressToNative
    simp only [Run.emit_bind, hconn, Run.deferred, h0x, hparse, Bool.false_eq_true, if_false]
    rw [Run.bind_out_ret _ _ (some e) (by rw [hchk])]
    rfl

/-- Witness of `resolvers_reject_ID_of_EVM_actor`: in `sampleWorld` the
string `f05` is the ID address of an EVM actor. -/
theorem resolvers_reject_ID_of_EVM_actor_witness :
    (∃ e, (e = "Cant pass an ID address of an EVM actor" ∨
            e = "Cant pass an ID address of an Eth Account") ∧
        (parseAddress sampleWorld "f05" sampleNode).out = .ret (common.Address.zero, some e) ∧
        (ParseAddressToEVM sampleWorld "f05").out = .ret (common.Address.zero, some e) ∧
        (ParseAddressToNative sampleWorld "f05").out = .ret (address.Undef, some e)) ∧
    (∀ (a : address.Address) (node : FullNode), a.Protocol ≠ address.ID →
        checkIDNotEVMActorType sampleWorld a node = ⟨.ret none, []⟩) :=
  resolvers_reject_ID_of_EVM_actor sampleWorld "f05" ⟨[0, 5]⟩ sampleNode ⟨10⟩ 10
    (by decide) rfl rfl rfl rfl rfl (Or.inl rfl)

/-- Claim C7: for every string beginning with `0x`, `parseAddress` returns
`common.HexToAddress` of the string with a nil error and an empty trace (no
`StateGetActor`, no `StateLookupID`); `ParseAddressToNative` issues no chain
query either and, once connected, returns what `ParseEthAddress` followed by
`ToFilecoinAddress` gives, its trace being the open and the release of the
connection only. -/
theorem resolvers_skip_lookup_of_0x (w : World) (addr : String)
    (h0x : strings.HasPrefix addr "0x" = true) :
    (∀ lapi : FullNode, parseAddress w addr lapi = ⟨.ret (w.HexToAddress addr, none), []⟩) ∧
    (∀ e ∈ (ParseAddressToNative w addr).trace, e.isChainQuery = false) ∧
    (∀ lapi : FullNode, w.ConnectLotusClient = .ok lapi →
      ParseAddressToNative w addr =
        ⟨.ret (match w.ParseEthAddress addr with
               | .error err => (address.Undef, some err)
               | .ok ethAddr => w.ToFilecoinAddress ethAddr),
         [.connect, .closer]⟩) := by
  have hnat : ∀ lapi : FullNode, w.ConnectLotusClient = .ok lapi →
      ParseAddressToNative w addr =
        ⟨.ret (match w.ParseEthAddress addr with
               | .error err => (address.Undef, some err)
               | .ok ethAddr => w.ToFilecoinAddress ethAddr),
         [.connect, .closer]⟩ := by
    intro lapi hconn
    unfold ParseAddressToNative
    simp only [Run.emit_bind, hconn, Run.deferred, h0x, if_true]
    cases w.ParseEthAddress addr <;> rfl
  refine ⟨?_, ?_, hnat⟩
  · intro lapi
    unfold parseAddress
    rw [if_pos h0x]
    rfl
  · intro e he
    cases hconn : w.ConnectLotusClient with
    | error err =>
      have ht : (ParseAddressToNative w addr).trace = [.connect] := by
        unfold ParseAddressToNative
        simp only [Run.emit_bind, hconn]
        rfl
      rw [ht] at he
      simp at he
      subst he
      rfl
    | ok lapi =>
      rw [hnat lapi hconn] at he
      simp at he
      rcases he with he | he <;> subst he <;> rfl

/-- Witness of `resolvers_skip_lookup_of_0x` at the string `0x0001`. -/
theorem resolvers_skip_lookup_of_0x_witness :
    (∀ lapi : FullNode,
      parseAddress sampleWorld "0x0001" lapi =
        ⟨.ret (sampleWorld.HexToAddress "0x0001", none), []⟩) ∧
    (∀ e ∈ (ParseAddressToNative sampleWorld "0x0001").trace, e.isChainQuery = false) ∧
    (∀ lapi : FullNode, sampleWorld.ConnectLotusClient = .ok lapi →
      ParseAddressToNative sampleWorld "0x0001" =
        ⟨.ret (match sampleWorld.ParseEthAddress "0x0001" with
               | .error err => (address.Undef, some err)
               | .ok ethAddr => sampleWorld.ToFilecoinAddress ethAddr),
         [.connect, .closer]⟩) :=
  resolvers_skip_lookup_of_0x sampleWorld "0x0001" (by decide)


/-! ### Address resolver: the connection -/

@[simp] theorem Run.bind_eq {α β : Type} (m : Run α) (f : α → Run β) :
    (m >>= f) = Run.bind m f := rfl

@[simp] theorem Run.bind_ret {α β : Type} (a : α) (t : List Event) (f : α → Run β) :
    Run.bind ⟨.ret a, t⟩ f = ⟨(f a).out, t ++ (f a).trace⟩ := rfl

@[simp] theorem Run.bind_exit {α β : Type} (c : Nat) (t : List Event) (f : α → Run β) :
    Run.bind (⟨.exit c, t⟩ : Run α) f = ⟨.exit c, t⟩ := rfl

@[simp] theorem Run.pure_def {α : Type} (a : α) : (pure a : Run α) = ⟨.ret a, []⟩ := rfl

@[simp] theorem Run.emit_def (e : Event) : emit e = ⟨.ret (), [e]⟩ := rfl

theorem checkIDNotEVMActorType_trace (w : World) (a : address.Address) (lapi : FullNode) :
    ∃ r, checkIDNotEVMActorType w a lapi =
      ⟨.ret r, if a.Protocol = address.ID then [.stateGetActor a] else []⟩ := by
  unfold checkIDNotEVMActorType
  by_cases hID : a.Protocol = address.ID
  · simp only [hID, if_true]
    cases lapi.StateGetActor a with
    | error err => exact ⟨some err, by simp⟩
    | ok actor =>
      cases w.GetActorCodeID .EvmKey with
      | none => exact ⟨some "actor code not found", by simp⟩
      | some c =>
        by_cases h1 : actor.Code = c
        · exact ⟨some "Cant pass an ID address of an EVM actor", by simp [h1]⟩
        · cases w.GetActorCodeID .EthAccountKey with
          | none => exact ⟨some "actor code not found", by simp [h1]⟩
          | some c' =>
            by_cases h2 : actor.Code = c'
            · exact ⟨some "Cant pass an ID address of an Eth Account", by simp [if_neg h1, if_pos h2]⟩
            · exact ⟨none, by simp [h1, h2]⟩
  · exact ⟨none, by simp [hID]⟩

theorem parseAddress_trace (w : World) (addr : String) (lapi : FullNode) :
    (parseAddress w addr lapi).trace = [] ∨
    ∃ e, e.isChainQuery = true ∧ (parseAddress w addr lapi).trace = [e] := by
  unfold parseAddress
  by_cases h0x : strings.HasPrefix addr "0x" = true
  · left; simp [h0x]
  · cases w.NewFromString addr with
    | error err => left; simp [h0x]
    | ok filAddr =>
      obtain ⟨r, hchk⟩ := checkIDNotEVMActorType_trace w filAddr lapi
      by_cases hID : filAddr.Protocol = address.ID
      · right
        refine ⟨.stateGetActor filAddr, rfl, ?_⟩
        cases r with
        | some err => simp [h0x, hchk, hID]
        | none =>
          cases hE : w.EthAddressFromFilecoinAddress filAddr <;> simp [h0x, hchk, hID, hE]
      · cases r with
        | some err => left; simp [h0x, hchk, hID]
        | none =>
          by_cases hD : filAddr.Protocol = address.Delegated
          · left
            cases hE : w.EthAddressFromFilecoinAddress filAddr <;>
              simp [h0x, hchk, hID, hD, hE] <;> decide
          · right
            refine ⟨.stateLookupID filAddr, rfl, ?_⟩
            cases hL : lapi.StateLookupID filAddr with
            | error err => simp [h0x, hchk, hID, hD, hL]
            | ok a' =>
              cases hE : w.EthAddressFromFilecoinAddress a' <;> simp [h0x, hchk, hID, hD, hL, hE]

theorem ParseAddressToNative_trace (w : World) (addr : String) (lapi : FullNode)
    (hconn : w.ConnectLotusClient = .ok lapi) :
    ∃ mid, (mid = [] ∨ ∃ e, e.isChainQuery = true ∧ mid = [e]) ∧
      (ParseAddressToNative w addr).trace = .connect :: (mid ++ [.closer]) := by
  unfold ParseAddressToNative
  by_cases h0x : strings.HasPrefix addr "0x" = true
  · refine ⟨[], Or.inl rfl, ?_⟩
    cases hE : w.ParseEthAddress addr <;> simp [hconn, Run.deferred, h0x, hE]
  · cases hN : w.NewFromString addr with
    | error err => exact ⟨[], Or.inl rfl, by simp [hconn, Run.deferred, h0x, hN]⟩
    | ok filAddr =>
      obtain ⟨r, hchk⟩ := checkIDNotEVMActorType_trace w filAddr lapi
      by_cases hID : filAddr.Protocol = address.ID
      · refine ⟨[.stateGetActor filAddr], Or.inr ⟨.stateGetActor filAddr, rfl, rfl⟩, ?_⟩
        cases r <;> simp [hconn, Run.deferred, h0x, hN, hchk, hID]
      · refine ⟨[], Or.inl rfl, ?_⟩
        cases r <;> simp [hconn, Run.deferred, h0x, hN, hchk, hID]

theorem ParseAddressToEVM_trace (w : World) (addr : String) (lapi : FullNode)
    (hconn : w.ConnectLotusClient = .ok lapi) :
    ∃ mid, (mid = [] ∨ ∃ e, e.isChainQuery = true ∧ mid = [e]) ∧
      (ParseAddressToEVM w addr).trace = .connect :: (mid ++ [.closer]) := by
  refine ⟨(parseAddress w addr lapi).trace, parseAddress_trace w addr lapi, ?_⟩
  unfold ParseAddressToEVM
  simp [hconn, Run.deferred]

theorem isScoped_of_mid (mid : List Event)
    (h : mid = [] ∨ ∃ e, e.isChainQuery = true ∧ mid = [e]) :
    isScoped (.connect :: (mid ++ [.closer])) = true := by
  rcases h with h | ⟨e, he, h⟩
  · subst h; rfl
  · subst h; simpa [isScoped] using he

/-- Claim C9, as amended: `ParseAddressToNative` and `ParseAddressToEVM`
always try to open a connection first; if that fails nothing else happens,
and if it succeeds the trace is the open, at most one chain round trip
(`StateGetActor` or `StateLookupID`) and the release, exactly once and last.
`ToMinerID` opens no connection when the string does not parse or parses to
an ID address; otherwise it behaves in the same way. -/
theorem resolvers_connection_scoped (w : World) (addr : String) :
    (match w.ConnectLotusClient with
     | .ok _ =>
       isScoped (ParseAddressToNative w addr).trace = true ∧
       isScoped (ParseAddressToEVM w addr).trace = true
     | .error _ =>
       (ParseAddressToNative w addr).trace = [.connect] ∧
       (ParseAddressToEVM w addr).trace = [.connect]) ∧
    (match w.NewFromString addr with
     | .error _ => (ToMinerID w addr).trace = []
     | .ok minerAddr =>
       if minerAddr.Protocol = address.ID then (ToMinerID w addr).trace = []
       else
         match w.ConnectLotusClient with
         | .ok _ => (ToMinerID w addr).trace = [.connect, .stateLookupID minerAddr, .closer]
         | .error _ => (ToMinerID w addr).trace = [.connect]) := by
  constructor
  · cases hconn : w.ConnectLotusClient with
    | error err =>
      simp [ParseAddressToNative, ParseAddressToEVM, hconn]
    | ok lapi =>
      obtain ⟨m1, hm1, ht1⟩ := ParseAddressToNative_trace w addr lapi hconn
      obtain ⟨m2, hm2, ht2⟩ := ParseAddressToEVM_trace w addr lapi hconn
      simp only []
      rw [ht1, ht2]
      exact ⟨isScoped_of_mid m1 hm1, isScoped_of_mid m2 hm2⟩
  · unfold ToMinerID
    cases hN : w.NewFromString addr with
    | error err => simp
    | ok minerAddr =>
      by_cases hID : minerAddr.Protocol = address.ID
      · simp [hID]
      · cases hconn : w.ConnectLotusClient with
        | error err => simp [hID]
        | ok lapi =>
          cases hL : lapi.StateLookupID minerAddr <;> simp [hID, Run.deferred, hL]

/-- Claim C9, as stated, fails: `ToMinerID` on the ID address `f05` returns the
address without a single event: no connection to the chain client is opened. -/
theorem ToMinerID_opens_no_connection_counterexample :
    ToMinerID sampleWorld "f05" = ⟨.ret (⟨[0, 5]⟩, none), []⟩ ∧
    Event.connect ∉ (ToMinerID sampleWorld "f05").trace := by
  constructor
  · rfl
  · decide

/-! ### Signer selection: stages of `commonOwnerOrOperatorSetup` -/

theorem Run.bind_of_out_ret {α β : Type} (m : Run α) (f : α → Run β) (a : α)
    (h : m.out = .ret a) : Run.bind m f = ⟨(f a).out, m.trace ++ (f a).trace⟩ := by
  simp [Run.bind, h]

theorem checkWalletMigrated.loop_trace_reads (w : World) (keys : List KeyType) :
    ∀ e ∈ (checkWalletMigrated.loop w keys).trace, e.isStoreRead = true := by
  induction keys with
  | nil => intro e he; simp [checkWalletMigrated.loop] at he
  | cons k rest ih =>
    intro e he
    unfold checkWalletMigrated.loop at he
    cases hg : w.as.GetAddrs k with
    | error err =>
      simp [hg] at he
      subst he; rfl
    | ok r =>
      obtain ⟨a, f⟩ := r
      by_cases hc : (IsZeroAddress a && f.Empty) = true
      · cases hl : w.ksLegacy.GetAddrs k with
        | error err =>
          simp [hg, hc, hl] at he
          rcases he with rfl | rfl <;> rfl
        | ok r' =>
          obtain ⟨oa, of⟩ := r'
          by_cases hz : IsZeroAddress oa = true
          · simp [hg, hc, hl, hz] at he
            rcases he with rfl | rfl <;> rfl
          · simp [hg, hc, hl, hz] at he
            rcases he with rfl | rfl <;> rfl
      · simp [hg, hc] at he
        rcases he with rfl | he
        · rfl
        · exact ih e he

theorem setup_of_reads (w : World) (fromArg : String) (opEvm : common.Address)
    (opFevm : address.Address) (owEvm : common.Address) (owFevm : address.Address)
    (proposer approver : address.Address)
    (hr : SetupReads w opEvm opFevm owEvm owFevm proposer approver) :
    commonOwnerOrOperatorSetup w fromArg =
      match (selectSigner w fromArg opEvm opFevm owEvm owFevm) with
      | ⟨.ret (.error err), t⟩ => ⟨.ret (.fail err), setupReadsTrace w ++ t⟩
      | ⟨.ret (.ok (fe, ff)), t⟩ =>
        ⟨(signerSetup w opEvm owEvm proposer approver fe ff).out,
         setupReadsTrace w ++ (t ++ (signerSetup w opEvm owEvm proposer approver fe ff).trace)⟩
      | ⟨.exit c, t⟩ => ⟨.exit c, setupReadsTrace w ++ t⟩ := by
  obtain ⟨hm, hop, ⟨a1, hpr⟩, ⟨a2, hap⟩, how⟩ := hr
  unfold commonOwnerOrOperatorSetup
  simp only [Run.bind_eq]
  rw [Run.bind_of_out_ret _ _ none hm]
  simp only [hop, hpr, hap, how, Run.emit_def, Run.bind_ret, Run.pure_def]
  generalize selectSigner w fromArg opEvm opFevm owEvm owFevm = s
  obtain ⟨o, t⟩ := s
  cases o with
  | exit c => simp [Run.bind, setupReadsTrace]
  | ret x =>
    cases x with
    | error err => simp [Run.bind, setupReadsTrace]
    | ok p =>
      obtain ⟨fe, ff⟩ := p
      simp [Run.bind, setupReadsTrace]


theorem setupReadsTrace_reads (w : World) :
    ∀ e ∈ setupReadsTrace w, e.isStoreRead = true := by
  intro e he
  unfold setupReadsTrace at he
  rw [List.mem_append] at he
  rcases he with he | he
  · exact checkWalletMigrated.loop_trace_reads w _ e he
  · simp at he
    rcases he with rfl | rfl | rfl | rfl <;> rfl

theorem selectSigner_operator_case (w : World) (fromArg : String) (opEvm : common.Address)
    (opFevm : address.Address) (owEvm : common.Address) (owFevm : address.Address)
    (hfrom : fromArg = "" ∨ fromArg = w.Hex opEvm ∨ fromArg = w.filString opFevm) :
    selectSigner w fromArg opEvm opFevm owEvm owFevm =
      match w.as.IsFunded opFevm (w.Hex opEvm) with
      | .ok true => ⟨.ret (.ok (opEvm, address.Undef)), [.isFunded]⟩
      | .ok false =>
        ⟨.ret (.ok (owEvm, address.Undef)),
         [.isFunded, .log "operator not funded, falling back to owner address"]⟩
      | .error err => ⟨.ret (.error err), [.isFunded]⟩ := by
  unfold selectSigner
  rw [if_pos hfrom]
  cases hf : w.as.IsFunded opFevm (w.Hex opEvm) with
  | error err => simp
  | ok b => cases b <;> simp

theorem selectSigner_owner_case (w : World) (fromArg : String) (opEvm : common.Address)
    (opFevm : address.Address) (owEvm : common.Address) (owFevm : address.Address)
    (hnot : ¬ (fromArg = "" ∨ fromArg = w.Hex opEvm ∨ fromArg = w.filString opFevm))
    (hfrom : fromArg = w.Hex owEvm ∨ fromArg = w.filString owFevm) :
    selectSigner w fromArg opEvm opFevm owEvm owFevm =
      if owFevm.Protocol = address.Delegated then ⟨.ret (.ok (owEvm, address.Undef)), []⟩
      else ⟨.ret (.ok (common.Address.zero, owFevm)), []⟩ := by
  unfold selectSigner
  rw [if_neg hnot, if_pos hfrom]
  rfl

theorem selectSigner_invalid (w : World) (fromArg : String) (opEvm : common.Address)
    (opFevm : address.Address) (owEvm : common.Address) (owFevm : address.Address)
    (hnot : ¬ (fromArg = "" ∨ fromArg = w.Hex opEvm ∨ fromArg = w.filString opFevm))
    (hnot2 : ¬ (fromArg = w.Hex owEvm ∨ fromArg = w.filString owFevm)) :
    selectSigner w fromArg opEvm opFevm owEvm owFevm =
      ⟨.ret (.error "invalid from address"), []⟩ := by
  unfold selectSigner
  rw [if_neg hnot, if_neg hnot2]
  rfl

theorem getAgentAddress_eq (w : World) :
    ∃ r, getAgentAddress w = ⟨.ret r, [.agentGet "address"]⟩ := by
  unfold getAgentAddress
  cases hg : w.as.Get "address" with
  | error err => exact ⟨(common.Address.zero, some err), by simp⟩
  | ok s =>
    by_cases hs : s = ""
    · exact ⟨(common.Address.zero, some "Did you forget to create your agent or specify an address? Try `glif agent id --address <address>`"), by simp [hs]⟩
    · exact ⟨(w.HexToAddress s, none), by simp [hs]⟩

theorem getRequesterKey_eq (w : World) :
    ∃ rk e t, getRequesterKey w = ⟨.ret (rk, e), t⟩ ∧
      ∀ x ∈ t, x.isPassphraseStep = false ∧ x.isKeyAccess = false := by
  unfold getRequesterKey
  cases hg : w.as.GetAddrs .RequestKey with
  | error err =>
    refine ⟨none, some err, [.agentGetAddrs .RequestKey], by simp, ?_⟩
    intro x hx; simp at hx; subst hx; exact ⟨rfl, rfl⟩
  | ok r =>
    obtain ⟨a, f⟩ := r
    cases hx : w.ks.Export ⟨a⟩ "" "" with
    | error err =>
      refine ⟨none, some err, [.agentGetAddrs .RequestKey, .ksExport ⟨a⟩], by simp [hx], ?_⟩
      intro x hx; simp at hx; rcases hx with rfl | rfl <;> exact ⟨rfl, rfl⟩
    | ok js =>
      cases hd : w.ks.DecryptKey js "" with
      | error err =>
        refine ⟨none, some err, [.agentGetAddrs .RequestKey, .ksExport ⟨a⟩, .decryptKey],
          by simp [hx, hd], ?_⟩
        intro x hx; simp at hx; rcases hx with rfl | rfl | rfl <;> exact ⟨rfl, rfl⟩
      | ok rk =>
        refine ⟨some rk, none, [.agentGetAddrs .RequestKey, .ksExport ⟨a⟩, .decryptKey],
          by simp [hx, hd], ?_⟩
        intro x hx; simp at hx; rcases hx with rfl | rfl | rfl <;> exact ⟨rfl, rfl⟩

theorem mkAccount_undef (fe : common.Address) :
    mkAccount fe address.Undef = ⟨⟨fe⟩, address.Undef⟩ := by
  simp [mkAccount, address.Address.Empty]

theorem signerSetup_eth (w : World) (opEvm owEvm : common.Address)
    (proposer approver : address.Address) (fe agentAddr : common.Address) (wallet : Wallet)
    (hagent : (getAgentAddress w).out = .ret (agentAddr, none))
    (hfil : w.IsFil ⟨⟨fe⟩, address.Undef⟩ = false)
    (hfind : w.Find false ⟨⟨fe⟩, address.Undef⟩ = .ok wallet)
    (x : Except Error String) (tp : List Event)
    (hp : obtainPassphrase w ⟨⟨fe⟩, address.Undef⟩ fe address.Undef owEvm opEvm = ⟨.ret x, tp⟩)
    (rk : Option PrivateKey) (e : Option Error) (tq : List Event)
    (hq : getRequesterKey w = ⟨.ret (rk, e), tq⟩) :
    signerSetup w opEvm owEvm proposer approver fe address.Undef =
      ⟨.ret (stagesResult x e fun p =>
          { agentAddr := agentAddr, wallet := some wallet,
            account := ⟨⟨fe⟩, address.Undef⟩, passphrase := p, proposer := proposer,
            approver := approver, requesterKey := rk, err := none }),
       .agentGet "address" :: .find ⟨⟨fe⟩, address.Undef⟩ :: (tp ++ stagesTail x tq)⟩ := by
  obtain ⟨r, hr⟩ := getAgentAddress_eq w
  rw [hr] at hagent
  simp at hagent
  subst hagent
  unfold signerSetup
  rw [hr, mkAccount_undef]
  cases x with
  | error err => simp [hfil, hfind, hp, stagesResult, stagesTail]
  | ok p =>
    cases e with
    | some err => simp [hfil, hfind, hp, hq, stagesResult, stagesTail]
    | none => simp [hfil, hfind, hp, hq, stagesResult, stagesTail]

theorem obtainPassphrase_eth (w : World) (account : accounts.Account)
    (fe owEvm opEvm : common.Address) (hrole : fe = owEvm ∨ fe = opEvm) :
    obtainPassphrase w account fe address.Undef owEvm opEvm =
      let envVar := if fe = owEvm then "GLIF_OWNER_PASSPHRASE" else "GLIF_OPERATOR_PASSPHRASE"
      let message := if fe = owEvm then "Owner key passphrase" else "Operator key passphrase"
      match w.LookupEnv envVar with
      | some v => ⟨.ret (.ok v), [.lookupEnv envVar]⟩
      | none =>
        match w.ks.Unlock account.EthAccount "" with
        | none => ⟨.ret (.ok ""), [.lookupEnv envVar, .unlock account.EthAccount ""]⟩
        | some _ =>
          ⟨.ret (match w.AskOne message with
                 | some p => if p = "" then .error "Aborted" else .ok p
                 | none => .error "Aborted"),
           [.lookupEnv envVar, .unlock account.EthAccount "", .askOne message]⟩ := by
  unfold obtainPassphrase
  have hE : address.Undef.Empty = true := rfl
  by_cases how : fe = owEvm
  · simp only [hE, how, if_true, LookupEnv]
    cases hl : w.LookupEnv "GLIF_OWNER_PASSPHRASE" with
    | some v => simp
    | none =>
      cases hu : w.ks.Unlock account.EthAccount "" with
      | none => simp [hu]
      | some err =>
        cases ha : w.AskOne "Owner key passphrase" with
        | none => simp [hu, ha]
        | some p => by_cases hpe : p = "" <;> simp [hu, ha, hpe]
  · have hop : fe = opEvm := hrole.resolve_left how
    simp only [hE, if_neg how, if_pos hop, if_true, LookupEnv]
    cases hl : w.LookupEnv "GLIF_OPERATOR_PASSPHRASE" with
    | some v => simp
    | none =>
      cases hu : w.ks.Unlock account.EthAccount "" with
      | none => simp [hu]
      | some err =>
        cases ha : w.AskOne "Operator key passphrase" with
        | none => simp [hu, ha]
        | some p => by_cases hpe : p = "" <;> simp [hu, ha, hpe]

theorem Event.not_keyAccess_of_storeRead (e : Event) (h : e.isStoreRead = true) :
    e.isKeyAccess = false := by
  cases e <;> simp_all [Event.isStoreRead, Event.isKeyAccess]

theorem address.eq_undef_of_empty (a : address.Address) (h : a.Empty = true) :
    a = address.Undef := by
  simpa [address.Address.Empty] using h

theorem obtainPassphrase_ret (w : World) (account : accounts.Account)
    (fe : common.Address) (ff : address.Address) (owEvm opEvm : common.Address) :
    ∃ x, (obtainPassphrase w account fe ff owEvm opEvm).out = .ret x := by
  by_cases hE : ff.Empty = true
  · have hff := address.eq_undef_of_empty ff hE
    subst hff
    by_cases hrole : fe = owEvm ∨ fe = opEvm
    · rw [obtainPassphrase_eth w account fe owEvm opEvm hrole]
      simp only []
      split
      · exact ⟨_, rfl⟩
      · split
        · exact ⟨_, rfl⟩
        · exact ⟨_, rfl⟩
    · have h1 : ¬ fe = owEvm := fun h => hrole (Or.inl h)
      have h2 : ¬ fe = opEvm := fun h => hrole (Or.inr h)
      unfold obtainPassphrase
      cases hu : w.ks.Unlock account.EthAccount "" with
      | none => exact ⟨.ok "", by simp [hE, h1, h2, hu]⟩
      | some err =>
        by_cases hp : (w.AskOne "").getD "" = ""
        · exact ⟨.error "Aborted", by simp [hE, h1, h2, hu, hp]⟩
        · exact ⟨.ok ((w.AskOne "").getD ""), by simp [hE, h1, h2, hu, hp]⟩
  · exact ⟨.ok "", by simp [obtainPassphrase, hE]⟩

theorem signerSetup_account (w : World) (opEvm owEvm : common.Address)
    (proposer approver : address.Address) (fe : common.Address) (ff : address.Address)
    (r : SetupResult)
    (hout : (signerSetup w opEvm owEvm proposer approver fe ff).out = .ret r)
    (hok : r.err = none) :
    r.account = mkAccount fe ff := by
  obtain ⟨ra, hra⟩ := getAgentAddress_eq w
  obtain ⟨x, hx⟩ := obtainPassphrase_ret w (mkAccount fe ff) fe ff owEvm opEvm
  obtain ⟨rk, e, tq, hq, -⟩ := getRequesterKey_eq w
  unfold signerSetup at hout
  rw [hra] at hout
  obtain ⟨agentAddr, ea⟩ := ra
  cases ea with
  | some err =>
    simp at hout
    subst hout
    simp [SetupResult.fail] at hok
  | none =>
    have finish : ∀ (hl : Bool),
        (match w.Find hl (mkAccount fe ff) with
          | .error err => (⟨.ret (SetupResult.fail err), []⟩ : Run SetupResult)
          | .ok wallet =>
            (obtainPassphrase w (mkAccount fe ff) fe ff owEvm opEvm).bind fun x =>
              match x with
              | .error err => ⟨.ret (SetupResult.fail err), []⟩
              | .ok passphrase =>
                (getRequesterKey w).bind fun q =>
                  match q with
                  | (_, some err) => ⟨.ret (SetupResult.fail err), []⟩
                  | (requesterKey, none) =>
                    ⟨.ret { agentAddr := agentAddr, wallet := some wallet,
                            account := mkAccount fe ff,
                            passphrase := passphrase, proposer := proposer,
                            approver := approver,
                            requesterKey := requesterKey, err := none }, []⟩).out = .ret r →
        r.account = mkAccount fe ff := by
      intro hl h
      cases hf : w.Find hl (mkAccount fe ff) with
      | error err =>
        simp [hf] at h
        subst h
        simp [SetupResult.fail] at hok
      | ok wallet =>
        simp only [hf] at h
        rw [Run.bind_of_out_ret _ _ x hx] at h
        cases x with
        | error err =>
          simp at h
          subst h
          simp [SetupResult.fail] at hok
        | ok p =>
          cases e with
          | some err =>
            simp [hq] at h
            subst h
            simp [SetupResult.fail] at hok
          | none =>
            simp [hq] at h
            subst h
            rfl
    by_cases hfil : w.IsFil (mkAccount fe ff) = true
    · cases hh : w.NewLedgerHub with
      | some err => simp [hfil, hh, logFatal, Exit] at hout
      | none =>
        simp only [hfil, hh, if_true, Run.bind_eq, Run.emit_def, Run.bind_ret, Run.pure_def] at hout
        exact finish true hout
    · simp only [hfil, if_false, Run.bind_eq, Run.emit_def, Run.bind_ret, Run.pure_def] at hout
      exact finish false hout

/-! ### Signer selection: operator and owner -/

/-- Claim C3: when the migration check and the address reads succeed and
`from` is empty or is the operator's EVM or native string, the `switch`
selects the operator's EVM address if the funded-check returns true and the
owner's EVM address if it returns false, in which case the line "operator not
funded, falling back to owner address" is logged; a successful setup then
returns the Ethereum-style account of the selected address.  If the
funded-check returns an error, the setup returns that error with zero-valued
results and no wallet is looked up. -/
theorem setup_prefers_funded_operator (w : World) (fromArg : String)
    (opEvm : common.Address) (opFevm : address.Address)
    (owEvm : common.Address) (owFevm : address.Address) (proposer approver : address.Address)
    (hr : SetupReads w opEvm opFevm owEvm owFevm proposer approver)
    (hfrom : fromArg = "" ∨ fromArg = w.Hex opEvm ∨ fromArg = w.filString opFevm) :
    match w.as.IsFunded opFevm (w.Hex opEvm) with
    | .ok true =>
      selectSigner w fromArg opEvm opFevm owEvm owFevm =
        ⟨.ret (.ok (opEvm, address.Undef)), [.isFunded]⟩ ∧
      (commonOwnerOrOperatorSetup w fromArg).out =
        (signerSetup w opEvm owEvm proposer approver opEvm address.Undef).out ∧
      (∀ r, (commonOwnerOrOperatorSetup w fromArg).out = .ret r → r.err = none →
        r.account = ⟨⟨opEvm⟩, address.Undef⟩)
    | .ok false =>
      selectSigner w fromArg opEvm opFevm owEvm owFevm =
        ⟨.ret (.ok (owEvm, address.Undef)),
         [.isFunded, .log "operator not funded, falling back to owner address"]⟩ ∧
      (commonOwnerOrOperatorSetup w fromArg).out =
        (signerSetup w opEvm owEvm proposer approver owEvm address.Undef).out ∧
      Event.log "operator not funded, falling back to owner address" ∈
        (commonOwnerOrOperatorSetup w fromArg).trace ∧
      (∀ r, (commonOwnerOrOperatorSetup w fromArg).out = .ret r → r.err = none →
        r.account = ⟨⟨owEvm⟩, address.Undef⟩)
    | .error err =>
      commonOwnerOrOperatorSetup w fromArg =
        ⟨.ret { agentAddr := common.Address.zero, wallet := none,
                account := accounts.Account.zero, passphrase := "",
                proposer := address.Undef, approver := address.Undef,
                requesterKey := none, err := some err },
         setupReadsTrace w ++ [.isFunded]⟩ ∧
      (∀ a, Event.find a ∉ (commonOwnerOrOperatorSetup w fromArg).trace) := by
  have hsel := selectSigner_operator_case w fromArg opEvm opFevm owEvm owFevm hfrom
  have hset := setup_of_reads w fromArg opEvm opFevm owEvm owFevm proposer approver hr
  cases hf : w.as.IsFunded opFevm (w.Hex opEvm) with
  | error err =>
    rw [hf] at hsel
    rw [hsel] at hset
    simp only [] at hset ⊢
    refine ⟨by rw [hset]; rfl, ?_⟩
    intro a ha
    rw [hset] at ha
    simp only [List.mem_append, List.mem_singleton] at ha
    rcases ha with ha | ha
    · have := setupReadsTrace_reads w _ ha
      simp [Event.isStoreRead] at this
    · cases ha
  | ok b =>
    rw [hf] at hsel
    cases b with
    | true =>
      simp only [] at hsel ⊢
      rw [hsel] at hset
      simp only [] at hset
      refine ⟨hsel, by rw [hset], ?_⟩
      intro r hout hok
      rw [hset] at hout
      rw [signerSetup_account w opEvm owEvm proposer approver opEvm address.Undef r hout hok,
        mkAccount_undef]
    | false =>
      simp only [] at hsel ⊢
      rw [hsel] at hset
      simp only [] at hset
      refine ⟨hsel, by rw [hset], ?_, ?_⟩
      · rw [hset]
        simp
      · intro r hout hok
        rw [hset] at hout
        rw [signerSetup_account w opEvm owEvm proposer approver owEvm address.Undef r hout hok,
          mkAccount_undef]

/-- Witness of `setup_prefers_funded_operator`: in `sampleWorld`, with no
`from`, the funded operator `0x0002` is selected. -/
theorem setup_prefers_funded_operator_witness :
    selectSigner sampleWorld "" ⟨2⟩ ⟨[4, 2]⟩ ⟨1⟩ ⟨[4, 1]⟩ =
      ⟨.ret (.ok (⟨2⟩, address.Undef)), [.isFunded]⟩ ∧
    (commonOwnerOrOperatorSetup sampleWorld "").out =
      (signerSetup sampleWorld ⟨2⟩ ⟨1⟩ ⟨[]⟩ ⟨[]⟩ ⟨2⟩ address.Undef).out ∧
    (∀ r, (commonOwnerOrOperatorSetup sampleWorld "").out = .ret r → r.err = none →
      r.account = ⟨⟨⟨2⟩⟩, address.Undef⟩) :=
  setup_prefers_funded_operator sampleWorld "" ⟨2⟩ ⟨[4, 2]⟩ ⟨1⟩ ⟨[4, 1]⟩ ⟨[]⟩ ⟨[]⟩
    ⟨rfl, rfl, ⟨_, rfl⟩, ⟨_, rfl⟩, rfl⟩ (Or.inl rfl)

/-- Claim C4, as amended: when the migration check and the address reads
succeed, `from` is the owner's EVM or native string and is neither empty nor
one of the operator's two strings, and the setup succeeds: if the owner's
native address uses the Delegated protocol the returned account is the
Ethereum-style account of the owner's EVM address, with an empty FilAddress;
if it uses another protocol and is not empty, the returned account is the
native account of the owner's native address. -/
theorem setup_owner_account (w : World) (fromArg : String)
    (opEvm : common.Address) (opFevm : address.Address)
    (owEvm : common.Address) (owFevm : address.Address) (proposer approver : address.Address)
    (r : SetupResult)
    (hr : SetupReads w opEvm opFevm owEvm owFevm proposer approver)
    (hnot : ¬ (fromArg = "" ∨ fromArg = w.Hex opEvm ∨ fromArg = w.filString opFevm))
    (hfrom : fromArg = w.Hex owEvm ∨ fromArg = w.filString owFevm)
    (hout : (commonOwnerOrOperatorSetup w fromArg).out = .ret r)
    (hok : r.err = none) :
    (owFevm.Protocol = address.Delegated →
      r.account = ⟨⟨owEvm⟩, address.Undef⟩ ∧ r.account.FilAddress.Empty = true) ∧
    (owFevm.Protocol ≠ address.Delegated → owFevm.Empty = false →
      r.account = ⟨⟨common.Address.zero⟩, owFevm⟩ ∧ r.account.FilAddress.Empty = false) := by
  have hsel := selectSigner_owner_case w fromArg opEvm opFevm owEvm owFevm hnot hfrom
  have hset := setup_of_reads w fromArg opEvm opFevm owEvm owFevm proposer approver hr
  constructor
  · intro hD
    rw [if_pos hD] at hsel
    rw [hsel] at hset
    simp only [] at hset
    rw [hset] at hout
    have := signerSetup_account w opEvm owEvm proposer approver owEvm address.Undef r hout hok
    rw [mkAccount_undef] at this
    rw [this]
    exact ⟨rfl, rfl⟩
  · intro hD hE
    rw [if_neg hD] at hsel
    rw [hsel] at hset
    simp only [] at hset
    rw [hset] at hout
    have := signerSetup_account w opEvm owEvm proposer approver common.Address.zero owFevm r
      hout hok
    rw [this]
    simp [mkAccount, hE]

/-- Witness of `setup_owner_account`: in `sampleWorld` the owner `0x0001` is
stored with a Delegated native address and `--from 0x0001` yields its
Ethereum-style account; in `ledgerOwnerWorld` the owner is the Ledger key
`f17` and `--from f17` yields the native account of `f17`. -/
theorem setup_owner_account_witness :
    ((commonOwnerOrOperatorSetup sampleWorld "0x0001").out =
      .ret { agentAddr := ⟨9⟩, wallet := some 7,
             account := ⟨⟨⟨1⟩⟩, address.Undef⟩, passphrase := "",
             proposer := ⟨[]⟩, approver := ⟨[]⟩, requesterKey := some 42, err := none } ∧
     (⟨⟨⟨1⟩⟩, address.Undef⟩ : accounts.Account) = ⟨⟨⟨1⟩⟩, address.Undef⟩ ∧
     (⟨⟨⟨1⟩⟩, address.Undef⟩ : accounts.Account).FilAddress.Empty = true) ∧
    ((commonOwnerOrOperatorSetup ledgerOwnerWorld "f17").out =
      .ret { agentAddr := ⟨9⟩, wallet := some 7,
             account := ⟨⟨common.Address.zero⟩, ⟨[1, 7]⟩⟩, passphrase := "",
             proposer := ⟨[]⟩, approver := ⟨[]⟩, requesterKey := some 42, err := none } ∧
     (⟨⟨common.Address.zero⟩, ⟨[1, 7]⟩⟩ : accounts.Account) =
       ⟨⟨common.Address.zero⟩, ⟨[1, 7]⟩⟩ ∧
     (⟨⟨common.Address.zero⟩, ⟨[1, 7]⟩⟩ : accounts.Account).FilAddress.Empty = false) :=
  ⟨⟨rfl,
    (setup_owner_account sampleWorld "0x0001" ⟨2⟩ ⟨[4, 2]⟩ ⟨1⟩ ⟨[4, 1]⟩ ⟨[]⟩ ⟨[]⟩
      { agentAddr := ⟨9⟩, wallet := some 7,
        account := ⟨⟨⟨1⟩⟩, address.Undef⟩, passphrase := "",
        proposer := ⟨[]⟩, approver := ⟨[]⟩, requesterKey := some 42, err := none }
      ⟨rfl, rfl, ⟨_, rfl⟩, ⟨_, rfl⟩, rfl⟩ (by decide) (Or.inl rfl) rfl rfl).1 rfl⟩,
   ⟨rfl,
    (setup_owner_account ledgerOwnerWorld "f17" ⟨2⟩ ⟨[4, 2]⟩ ⟨0⟩ ⟨[1, 7]⟩ ⟨[]⟩ ⟨[]⟩
      { agentAddr := ⟨9⟩, wallet := some 7,
        account := ⟨⟨common.Address.zero⟩, ⟨[1, 7]⟩⟩, passphrase := "",
        proposer := ⟨[]⟩, approver := ⟨[]⟩, requesterKey := some 42, err := none }
      ⟨rfl, rfl, ⟨_, rfl⟩, ⟨_, rfl⟩, rfl⟩ (by decide) (Or.inr rfl) rfl rfl).2 (by decide) rfl⟩⟩

/-- Claim C4, as stated, fails: in `sameKeyWorld` the owner's native address
`f17` is not Delegated and `from` is its string, yet the setup succeeds with
the Ethereum-style account of `0x0005` (empty FilAddress) and not with the
native account of `f17`: the operator holds the same address and its case of
the `switch` comes first. -/
theorem setup_owner_account_counterexample :
    sameKeyWorld.as.GetAddrs .OwnerKey = .ok (⟨5⟩, ⟨[1, 7]⟩) ∧
    "f17" = sameKeyWorld.filString ⟨[1, 7]⟩ ∧
    (⟨[1, 7]⟩ : address.Address).Protocol ≠ address.Delegated ∧
    (commonOwnerOrOperatorSetup sameKeyWorld "f17").out =
      .ret { agentAddr := ⟨9⟩, wallet := some 7,
             account := ⟨⟨⟨5⟩⟩, address.Undef⟩, passphrase := "",
             proposer := ⟨[]⟩, approver := ⟨[]⟩, requesterKey := some 42, err := none } ∧
    (⟨⟨⟨5⟩⟩, address.Undef⟩ : accounts.Account) ≠ ⟨⟨common.Address.zero⟩, ⟨[1, 7]⟩⟩ ∧
    (⟨⟨⟨5⟩⟩, address.Undef⟩ : accounts.Account).FilAddress.Empty = true := by
  refine ⟨rfl, rfl, by decide, rfl, by decide, rfl⟩

/-! ### Signer selection: rejected `from` -/

/-- Claim C5: when the migration check and the address reads succeed and
`from` is neither empty nor one of the four strings of the operator's and the
owner's EVM and native addresses, the call returns the error "invalid from
address" with zero-valued results, its trace being the migration check and
the four address reads only: no wallet lookup, no environment read, no unlock
and no prompt. -/
theorem setup_rejects_unknown_from (w : World) (fromArg : String)
    (opEvm : common.Address) (opFevm : address.Address)
    (owEvm : common.Address) (owFevm : address.Address) (proposer approver : address.Address)
    (hr : SetupReads w opEvm opFevm owEvm owFevm proposer approver)
    (h0 : fromArg ≠ "")
    (h1 : fromArg ≠ w.Hex opEvm) (h2 : fromArg ≠ w.filString opFevm)
    (h3 : fromArg ≠ w.Hex owEvm) (h4 : fromArg ≠ w.filString owFevm) :
    commonOwnerOrOperatorSetup w fromArg =
      ⟨.ret { agentAddr := common.Address.zero, wallet := none,
              account := accounts.Account.zero, passphrase := "",
              proposer := address.Undef, approver := address.Undef,
              requesterKey := none, err := some "invalid from address" },
       setupReadsTrace w⟩ ∧
    (∀ e ∈ (commonOwnerOrOperatorSetup w fromArg).trace, e.isKeyAccess = false) := by
  have hsel := selectSigner_invalid w fromArg opEvm opFevm owEvm owFevm
    (by simp [h0, h1, h2]) (by simp [h3, h4])
  have hset := setup_of_reads w fromArg opEvm opFevm owEvm owFevm proposer approver hr
  rw [hsel] at hset
  simp only [List.append_nil] at hset
  refine ⟨by rw [hset]; rfl, ?_⟩
  intro e he
  rw [hset] at he
  exact Event.not_keyAccess_of_storeRead e (setupReadsTrace_reads w e he)

/-- Witness of `setup_rejects_unknown_from`: `--from 0x0009` in `sampleWorld`. -/
theorem setup_rejects_unknown_from_witness :
    commonOwnerOrOperatorSetup sampleWorld "0x0009" =
      ⟨.ret { agentAddr := common.Address.zero, wallet := none,
              account := accounts.Account.zero, passphrase := "",
              proposer := address.Undef, approver := address.Undef,
              requesterKey := none, err := some "invalid from address" },
       setupReadsTrace sampleWorld⟩ ∧
    (∀ e ∈ (commonOwnerOrOperatorSetup sampleWorld "0x0009").trace, e.isKeyAccess = false) :=
  setup_rejects_unknown_from sampleWorld "0x0009" ⟨2⟩ ⟨[4, 2]⟩ ⟨1⟩ ⟨[4, 1]⟩ ⟨[]⟩ ⟨[]⟩
    ⟨rfl, rfl, ⟨_, rfl⟩, ⟨_, rfl⟩, rfl⟩ (by decide) (by decide) (by decide) (by decide)
    (by decide)

/-! ### The `label-account` handler -/

/-- Claim C6: if the lookup of the name succeeds, the handler logs
"<name> account already created" and ends through `Exit(1)`, its trace
holding the lookup and the log line only (no resolver call, no mapping set,
no configuration write); whenever a run of the handler reaches the resolver,
the store write or the configuration write, the lookup had failed with the
error value `ErrKeyNotFound`; when the lookup fails so, the resolver is
called; and when the lookup fails with any other error value, whatever its
text, the handler logs it and ends through `Exit(1)` with nothing else done. -/
theorem labelAccount_existing_name_fails (w : World) (name addr : String) :
    (∀ r, w.accountsStore.GetAddrs name = .ok r →
      labelAccountCmd w name addr =
        ⟨.exit 1, [.accountsGetAddrs name, .log (name ++ " account already created\n")]⟩) ∧
    (∀ e ∈ (labelAccountCmd w name addr).trace, e.isLabelEffect = true →
      w.accountsStore.GetAddrs name = .error w.ErrKeyNotFound) ∧
    (w.accountsStore.GetAddrs name = .error w.ErrKeyNotFound →
      Event.resolve addr ∈ (labelAccountCmd w name addr).trace) ∧
    (∀ err, w.accountsStore.GetAddrs name = .error err → err ≠ w.ErrKeyNotFound →
      labelAccountCmd w name addr = ⟨.exit 1, [.accountsGetAddrs name, .log err.msg]⟩) := by
  refine ⟨?_, ?_, ?_, ?_⟩
  · intro r hget
    simp [labelAccountCmd, hget, logFatalf, Exit]
  · intro e he heff
    cases hget : w.accountsStore.GetAddrs name with
    | ok r =>
      simp [labelAccountCmd, hget, logFatalf, Exit] at he
      rcases he with rfl | rfl <;> simp [Event.isLabelEffect] at heff
    | error err =>
      by_cases herr : err = w.ErrKeyNotFound
      · rw [herr]
      · simp [labelAccountCmd, hget, herr, logFatal, Exit] at he
        rcases he with rfl | rfl <;> simp [Event.isLabelEffect] at heff
  · intro hget
    cases hres : w.AddressOrAccountNameToEVM addr with
    | error err => simp [labelAccountCmd, hget, hres, logFatal, Exit]
    | ok a => simp [labelAccountCmd, hget, hres]
  · intro err hget herr
    simp [labelAccountCmd, hget, herr, logFatal, Exit]

/-- Witness of `labelAccount_existing_name_fails`: in `sampleWorld` the name
`alice` is taken and the handler exits with code 1 after the lookup and the
log line; the name `bob` is free and the resolver is called; in
`sameTextErrorWorld` the lookup fails with an error that only shares the text
of `ErrKeyNotFound` and the handler exits with code 1 without resolving. -/
theorem labelAccount_existing_name_fails_witness :
    labelAccountCmd sampleWorld "alice" "0x0001" =
      ⟨.exit 1, [.accountsGetAddrs "alice", .log "alice account already created\n"]⟩ ∧
    Event.resolve "0x0001" ∈ (labelAccountCmd sampleWorld "bob" "0x0001").trace ∧
    labelAccountCmd sameTextErrorWorld "bob" "0x0001" =
      ⟨.exit 1, [.accountsGetAddrs "bob", .log "key not found"]⟩ :=
  ⟨(labelAccount_existing_name_fails sampleWorld "alice" "0x0001").1 _ rfl,
   (labelAccount_existing_name_fails sampleWorld "bob" "0x0001").2.2.1 rfl,
   (labelAccount_existing_name_fails sameTextErrorWorld "bob" "0x0001").2.2.2
     ⟨1, "key not found"⟩ rfl (by decide)⟩

/-! ### Signer selection: the passphrase -/

theorem filter_nil_of_forall (p : Event → Bool) (l : List Event)
    (h : ∀ e ∈ l, p e = false) : l.filter p = [] := by
  induction l with
  | nil => rfl
  | cons x xs ih =>
    have hx := h x (List.mem_cons_self _ _)
    simp [List.filter, hx, ih (fun e he => h e (List.mem_cons_of_mem _ he))]

theorem Event.not_passphraseStep_of_storeRead (e : Event) (h : e.isStoreRead = true) :
    e.isPassphraseStep = false := by
  cases e <;> simp_all [Event.isStoreRead, Event.isPassphraseStep]

theorem selectSigner_trace (w : World) (fromArg : String) (opEvm : common.Address)
    (opFevm : address.Address) (owEvm : common.Address) (owFevm : address.Address) :
    ∀ e ∈ (selectSigner w fromArg opEvm opFevm owEvm owFevm).trace,
      e.isPassphraseStep = false ∧ e.isKeyAccess = false := by
  intro e he
  by_cases h1 : fromArg = "" ∨ fromArg = w.Hex opEvm ∨ fromArg = w.filString opFevm
  · rw [selectSigner_operator_case w fromArg opEvm opFevm owEvm owFevm h1] at he
    cases hf : w.as.IsFunded opFevm (w.Hex opEvm) with
    | error err =>
      simp [hf] at he
      subst he
      exact ⟨rfl, rfl⟩
    | ok b =>
      cases b
      · simp [hf] at he
        rcases he with rfl | rfl <;> exact ⟨rfl, rfl⟩
      · simp [hf] at he
        subst he
        exact ⟨rfl, rfl⟩
  · by_cases h2 : fromArg = w.Hex owEvm ∨ fromArg = w.filString owFevm
    · rw [selectSigner_owner_case w fromArg opEvm opFevm owEvm owFevm h1 h2] at he
      by_cases hD : owFevm.Protocol = address.Delegated
      · simp [hD] at he
      · simp [hD] at he
    · rw [selectSigner_invalid w fromArg opEvm opFevm owEvm owFevm h1 h2] at he
      simp at he

theorem setup_eth_eq (w : World) (fromArg : String)
    (opEvm : common.Address) (opFevm : address.Address)
    (owEvm : common.Address) (owFevm : address.Address) (proposer approver : address.Address)
    (fe agentAddr : common.Address) (t0 : List Event) (wallet : Wallet)
    (hr : SetupReads w opEvm opFevm owEvm owFevm proposer approver)
    (hsel : selectSigner w fromArg opEvm opFevm owEvm owFevm =
      ⟨.ret (.ok (fe, address.Undef)), t0⟩)
    (hagent : (getAgentAddress w).out = .ret (agentAddr, none))
    (hfil : w.IsFil ⟨⟨fe⟩, address.Undef⟩ = false)
    (hfind : w.Find false ⟨⟨fe⟩, address.Undef⟩ = .ok wallet)
    (x : Except Error String) (tp : List Event)
    (hp : obtainPassphrase w ⟨⟨fe⟩, address.Undef⟩ fe address.Undef owEvm opEvm = ⟨.ret x, tp⟩)
    (rk : Option PrivateKey) (e : Option Error) (tq : List Event)
    (hq : getRequesterKey w = ⟨.ret (rk, e), tq⟩)
    (htq : ∀ x ∈ tq, x.isPassphraseStep = false ∧ x.isKeyAccess = false) :
    (commonOwnerOrOperatorSetup w fromArg).out =
      .ret (stagesResult x e fun p =>
          { agentAddr := agentAddr, wallet := some wallet,
            account := ⟨⟨fe⟩, address.Undef⟩, passphrase := p, proposer := proposer,
            approver := approver, requesterKey := rk, err := none }) ∧
    (commonOwnerOrOperatorSetup w fromArg).trace.filter Event.isPassphraseStep =
      tp.filter Event.isPassphraseStep := by
  have hset := setup_of_reads w fromArg opEvm opFevm owEvm owFevm proposer approver hr
  rw [hsel] at hset
  simp only [] at hset
  rw [signerSetup_eth w opEvm owEvm proposer approver fe agentAddr wallet hagent hfil hfind
    x tp hp rk e tq hq] at hset
  have h0 : t0.filter Event.isPassphraseStep = [] := by
    apply filter_nil_of_forall
    intro ev hev
    have := selectSigner_trace w fromArg opEvm opFevm owEvm owFevm ev (by rw [hsel]; exact hev)
    exact this.1
  have h1 : (setupReadsTrace w).filter Event.isPassphraseStep = [] := by
    apply filter_nil_of_forall
    intro ev hev
    exact Event.not_passphraseStep_of_storeRead ev (setupReadsTrace_reads w ev hev)
  have h2 : tq.filter Event.isPassphraseStep = [] :=
    filter_nil_of_forall _ _ (fun ev hev => (htq ev hev).1)
  have h3 : ([.agentGet "address", .find ⟨⟨fe⟩, address.Undef⟩] : List Event).filter
      Event.isPassphraseStep = [] := rfl
  rw [hset]
  refine ⟨rfl, ?_⟩
  cases x with
  | error err =>
    show List.filter _ (setupReadsTrace w ++ (t0 ++
      ([.agentGet "address", .find ⟨⟨fe⟩, address.Undef⟩] ++ (tp ++ [])))) = _
    simp only [List.filter_append, h0, h1, h3, List.nil_append, List.append_nil, List.filter_nil]
  | ok p =>
    show List.filter _ (setupReadsTrace w ++ (t0 ++
      ([.agentGet "address", .find ⟨⟨fe⟩, address.Undef⟩] ++ (tp ++ tq)))) = _
    simp only [List.filter_append, h0, h1, h2, h3, List.nil_append, List.append_nil]

/-- Claim C8, as amended: once the migration check and the address reads
have succeeded and the `switch` has resolved an Ethereum-style signer whose
address is the owner's or the operator's (agent address read, wallet found),
the passphrase steps of the run are, in this order: a read of the environment
variable (`GLIF_OWNER_PASSPHRASE` when the signer's address is the owner's,
`GLIF_OPERATOR_PASSPHRASE` when it is the operator's and not the owner's); if
the variable is set, nothing more, and its value is the passphrase; otherwise
an unlock with the empty passphrase and, if it succeeds, nothing more and the
passphrase is empty; otherwise a prompt, an empty (or failed) answer making
the call return the error "Aborted" and a non-empty answer being the
passphrase.  The passphrase is what the call returns when the requester key
is then read successfully; if that read fails the call returns its error. -/
theorem setup_passphrase_order (w : World) (fromArg : String)
    (opEvm : common.Address) (opFevm : address.Address)
    (owEvm : common.Address) (owFevm : address.Address) (proposer approver : address.Address)
    (fe agentAddr : common.Address) (t0 : List Event) (wallet : Wallet)
    (hr : SetupReads w opEvm opFevm owEvm owFevm proposer approver)
    (hsel : selectSigner w fromArg opEvm opFevm owEvm owFevm =
      ⟨.ret (.ok (fe, address.Undef)), t0⟩)
    (hrole : fe = owEvm ∨ fe = opEvm)
    (hagent : (getAgentAddress w).out = .ret (agentAddr, none))
    (hfil : w.IsFil ⟨⟨fe⟩, address.Undef⟩ = false)
    (hfind : w.Find false ⟨⟨fe⟩, address.Undef⟩ = .ok wallet) :
    let envVar := if fe = owEvm then "GLIF_OWNER_PASSPHRASE" else "GLIF_OPERATOR_PASSPHRASE"
    let message := if fe = owEvm then "Owner key passphrase" else "Operator key passphrase"
    let run := commonOwnerOrOperatorSetup w fromArg
    let steps := run.trace.filter Event.isPassphraseStep
    let returns : String → Prop := fun p =>
      (∀ rk, (getRequesterKey w).out = .ret (rk, none) →
        run.out = .ret { agentAddr := agentAddr, wallet := some wallet,
                         account := ⟨⟨fe⟩, address.Undef⟩, passphrase := p,
                         proposer := proposer, approver := approver,
                         requesterKey := rk, err := none }) ∧
      (∀ rk err, (getRequesterKey w).out = .ret (rk, some err) →
        run.out = .ret (.fail err))
    (∀ v, w.LookupEnv envVar = some v → steps = [.lookupEnv envVar] ∧ returns v) ∧
    (w.LookupEnv envVar = none → w.ks.Unlock ⟨fe⟩ "" = none →
      steps = [.lookupEnv envVar, .unlock ⟨fe⟩ ""] ∧ returns "") ∧
    (w.LookupEnv envVar = none → w.ks.Unlock ⟨fe⟩ "" ≠ none →
      steps = [.lookupEnv envVar, .unlock ⟨fe⟩ "", .askOne message] ∧
      match w.AskOne message with
      | some p => if p = "" then run.out = .ret (.fail "Aborted") else returns p
      | none => run.out = .ret (.fail "Aborted")) := by
  intro envVar message run steps returns
  obtain ⟨rk, e, tq, hq, htq⟩ := getRequesterKey_eq w
  have hpass := obtainPassphrase_eth w ⟨⟨fe⟩, address.Undef⟩ fe owEvm opEvm hrole
  simp only [] at hpass
  have main := fun x tp hp =>
    setup_eth_eq w fromArg opEvm opFevm owEvm owFevm proposer approver fe agentAddr t0 wallet
      hr hsel hagent hfil hfind x tp hp rk e tq hq htq
  have hret : ∀ p, (commonOwnerOrOperatorSetup w fromArg).out =
      .ret (stagesResult (.ok p) e fun p =>
          { agentAddr := agentAddr, wallet := some wallet,
            account := ⟨⟨fe⟩, address.Undef⟩, passphrase := p, proposer := proposer,
            approver := approver, requesterKey := rk, err := none }) → returns p := by
    intro p hout
    constructor
    · intro rk' hrk
      rw [hq] at hrk
      simp at hrk
      obtain ⟨h1, h2⟩ := hrk
      subst h1 h2
      exact hout
    · intro rk' err hrk
      rw [hq] at hrk
      simp at hrk
      obtain ⟨h1, h2⟩ := hrk
      subst h1 h2
      exact hout
  refine ⟨?_, ?_, ?_⟩
  · intro v hv
    rw [hv] at hpass
    obtain ⟨ho, ht⟩ := main _ _ hpass
    exact ⟨by simpa [List.filter, Event.isPassphraseStep] using ht, hret v ho⟩
  · intro hv hu
    rw [hv, hu] at hpass
    obtain ⟨ho, ht⟩ := main _ _ hpass
    exact ⟨by simpa [List.filter, Event.isPassphraseStep] using ht, hret "" ho⟩
  · intro hv hu
    cases hu' : w.ks.Unlock ⟨fe⟩ "" with
    | none => exact absurd hu' hu
    | some uerr =>
      rw [hv, hu'] at hpass
      obtain ⟨ho, ht⟩ := main _ _ hpass
      refine ⟨by simpa [List.filter, Event.isPassphraseStep] using ht, ?_⟩
      cases ha : w.AskOne message with
      | none =>
        rw [ha] at ho
        exact ho
      | some p =>
        rw [ha] at ho
        by_cases hp : p = ""
        · simp only [hp, if_true] at ho ⊢
          exact ho
        · simp only [hp, if_false] at ho ⊢
          exact hret p ho

/-- Witness of `setup_passphrase_order`: in `envWorld` the funded operator
`0x0002` signs and `GLIF_OPERATOR_PASSPHRASE` gives the passphrase, with no
unlock and no prompt; in `sampleWorld` no variable is set and the unlock with
the empty passphrase succeeds. -/
theorem setup_passphrase_order_witness :
    ((commonOwnerOrOperatorSetup envWorld "").trace.filter Event.isPassphraseStep =
        [.lookupEnv "GLIF_OPERATOR_PASSPHRASE"] ∧
      (commonOwnerOrOperatorSetup envWorld "").out =
        .ret { agentAddr := ⟨9⟩, wallet := some 7, account := ⟨⟨⟨2⟩⟩, address.Undef⟩,
               passphrase := "pw", proposer := ⟨[]⟩, approver := ⟨[]⟩,
               requesterKey := some 42, err := none }) ∧
    ((commonOwnerOrOperatorSetup sampleWorld "").trace.filter Event.isPassphraseStep =
        [.lookupEnv "GLIF_OPERATOR_PASSPHRASE", .unlock ⟨⟨2⟩⟩ ""] ∧
      (commonOwnerOrOperatorSetup sampleWorld "").out =
        .ret { agentAddr := ⟨9⟩, wallet := some 7, account := ⟨⟨⟨2⟩⟩, address.Undef⟩,
               passphrase := "", proposer := ⟨[]⟩, approver := ⟨[]⟩,
               requesterKey := some 42, err := none }) :=
  have h1 := (setup_passphrase_order envWorld "" ⟨2⟩ ⟨[4, 2]⟩ ⟨1⟩ ⟨[4, 1]⟩ ⟨[]⟩ ⟨[]⟩
    ⟨2⟩ ⟨9⟩ [.isFunded] 7 ⟨rfl, rfl, ⟨_, rfl⟩, ⟨_, rfl⟩, rfl⟩ rfl (Or.inr rfl) rfl rfl rfl).1
    "pw" rfl
  have h2 := (setup_passphrase_order sampleWorld "" ⟨2⟩ ⟨[4, 2]⟩ ⟨1⟩ ⟨[4, 1]⟩ ⟨[]⟩ ⟨[]⟩
    ⟨2⟩ ⟨9⟩ [.isFunded] 7 ⟨rfl, rfl, ⟨_, rfl⟩, ⟨_, rfl⟩, rfl⟩ rfl (Or.inr rfl) rfl rfl rfl).2.1
    rfl rfl
  ⟨⟨h1.1, h1.2.1 (some 42) rfl⟩, ⟨h2.1, h2.2.1 (some 42) rfl⟩⟩

/-- Claim C8, as stated, fails: in `sharedKeyWorld` the `switch` selects the
funded operator and `GLIF_OPERATOR_PASSPHRASE` is set to "pw", yet the run
reads `GLIF_OWNER_PASSPHRASE` (the signer's address is also the owner's),
goes on to unlock with the empty passphrase, and returns the empty passphrase. -/
theorem setup_passphrase_order_counterexample :
    selectSigner sharedKeyWorld "" ⟨1⟩ ⟨[4, 1]⟩ ⟨1⟩ ⟨[4, 1]⟩ =
      ⟨.ret (.ok (⟨1⟩, address.Undef)), [.isFunded]⟩ ∧
    sharedKeyWorld.as.GetAddrs .OperatorKey = .ok (⟨1⟩, ⟨[4, 1]⟩) ∧
    sharedKeyWorld.LookupEnv "GLIF_OPERATOR_PASSPHRASE" = some "pw" ∧
    (commonOwnerOrOperatorSetup sharedKeyWorld "").trace.filter Event.isPassphraseStep =
      [.lookupEnv "GLIF_OWNER_PASSPHRASE", .unlock ⟨⟨1⟩⟩ ""] ∧
    (commonOwnerOrOperatorSetup sharedKeyWorld "").out =
      .ret { agentAddr := ⟨9⟩, wallet := some 7, account := ⟨⟨⟨1⟩⟩, address.Undef⟩,
             passphrase := "", proposer := ⟨[]⟩, approver := ⟨[]⟩,
             requesterKey := some 42, err := none } :=
  ⟨rfl, rfl, rfl, rfl, rfl⟩

/-! ### Migration check: the first absent key decides -/

theorem checkWalletMigrated.loop_legacy_skip (w : World) (pre rest : List KeyType)
    (h : ∀ k ∈ pre, presentNew w k = true) :
    (checkWalletMigrated.loop w (pre ++ rest)).trace.filter Event.isLegacyRead =
      (checkWalletMigrated.loop w rest).trace.filter Event.isLegacyRead := by
  induction pre with
  | nil => rfl
  | cons k pre ih =>
    have hk := h k (List.mem_cons_self _ _)
    have ih' := ih (fun k' hk' => h k' (List.mem_cons_of_mem _ hk'))
    unfold presentNew at hk
    cases hg : w.as.GetAddrs k with
    | error e => simp [hg] at hk
    | ok r =>
      obtain ⟨a, f⟩ := r
      simp [hg] at hk
      have hc : ¬ (IsZeroAddress a = true ∧ f.Empty = true) := by
        rcases hk with h1 | h1 <;> simp [h1]
      simp [checkWalletMigrated.loop, hg, hc, List.filter, Event.isLegacyRead, ih']

theorem checkWalletMigrated.loop_legacy_absent (w : World) (k : KeyType) (rest : List KeyType)
    (h : absentNew w k = true) :
    (checkWalletMigrated.loop w (k :: rest)).trace.filter Event.isLegacyRead =
      [.legacyGetAddrs k] := by
  unfold absentNew at h
  cases hg : w.as.GetAddrs k with
  | error e => simp [hg] at h
  | ok r =>
    obtain ⟨a, f⟩ := r
    simp [hg] at h
    cases hl : w.ksLegacy.GetAddrs k with
    | error e =>
      simp [checkWalletMigrated.loop, hg, h.1, h.2, hl, List.filter, Event.isLegacyRead]
    | ok r' =>
      obtain ⟨oa, of⟩ := r'
      by_cases hz : IsZeroAddress oa = true <;>
        simp [checkWalletMigrated.loop, hg, h.1, h.2, hl, hz, List.filter, Event.isLegacyRead]

theorem exists_first_absent (w : World) (l : List KeyType)
    (h : ¬ ∀ k ∈ l, presentNew w k = true) :
    ∃ pre k post, l = pre ++ k :: post ∧ (∀ k' ∈ pre, presentNew w k' = true) ∧
      presentNew w k = false := by
  induction l with
  | nil => exact absurd (fun k hk => absurd hk (List.not_mem_nil _)) h
  | cons x xs ih =>
    by_cases hx : presentNew w x = true
    · have hxs : ¬ ∀ k ∈ xs, presentNew w k = true := by
        intro hall
        apply h
        intro k hk
        rcases List.mem_cons.mp hk with rfl | hk'
        · exact hx
        · exact hall k hk'
      obtain ⟨pre, k, post, hl, hpre, hk⟩ := ih hxs
      refine ⟨x :: pre, k, post, by rw [hl]; rfl, ?_, hk⟩
      intro k' hk'
      rcases List.mem_cons.mp hk' with rfl | hk''
      · exact hx
      · exact hpre k' hk''
    · exact ⟨[], x, xs, rfl, fun _ hk => absurd hk (List.not_mem_nil _), by simpa using hx⟩

theorem absentNew_of_not_present (w : World) (k : KeyType)
    (hread : ∃ r, w.as.GetAddrs k = .ok r) (h : presentNew w k = false) :
    absentNew w k = true := by
  obtain ⟨r, hr⟩ := hread
  obtain ⟨a, f⟩ := r
  unfold presentNew at h
  unfold absentNew
  simp [hr] at h ⊢
  exact h

/-- Claim C11: when all reads of the two stores succeed, `checkWalletMigrated`
returns nil if and only if the owner, operator and requester keys are all
present in the new store, and then the legacy store is not read at all;
otherwise there is a first absent key `k` in the order owner, operator,
requester, and for that key the result is the missing-key error naming `k`
if `k` is absent from the legacy store and the not-migrated error if it is
present there, the only read of the legacy store being the one for `k`. -/
theorem checkWalletMigrated_decided_by_first_absent (w : World) (hreads : readsSucceed w) :
    ((checkWalletMigrated w).out = .ret none ↔
      ∀ k ∈ checkWalletMigrated.keys, presentNew w k = true) ∧
    ((∀ k ∈ checkWalletMigrated.keys, presentNew w k = true) →
      (checkWalletMigrated w).trace.filter Event.isLegacyRead = []) ∧
    ((¬ ∀ k ∈ checkWalletMigrated.keys, presentNew w k = true) →
      ∃ pre k post, checkWalletMigrated.keys = pre ++ k :: post ∧
        (∀ k' ∈ pre, presentNew w k' = true) ∧ presentNew w k = false) ∧
    (∀ pre k post, checkWalletMigrated.keys = pre ++ k :: post →
      (∀ k' ∈ pre, presentNew w k' = true) → presentNew w k = false →
      (checkWalletMigrated w).out =
        .ret (some (if absentLegacy w k then missingKeyError w k else notMigratedError)) ∧
      (presentLegacy w k = !absentLegacy w k) ∧
      (checkWalletMigrated w).trace.filter Event.isLegacyRead = [.legacyGetAddrs k]) := by
  have first : ∀ pre k post, checkWalletMigrated.keys = pre ++ k :: post →
      (∀ k' ∈ pre, presentNew w k' = true) → presentNew w k = false →
      (checkWalletMigrated w).out =
        .ret (some (if absentLegacy w k then missingKeyError w k else notMigratedError)) ∧
      (presentLegacy w k = !absentLegacy w k) ∧
      (checkWalletMigrated w).trace.filter Event.isLegacyRead = [.legacyGetAddrs k] := by
    intro pre k post hkeys hpre hk
    have habs := absentNew_of_not_present w k (hreads.1 k) hk
    obtain ⟨r, hl⟩ := hreads.2 k
    obtain ⟨oa, of⟩ := r
    refine ⟨?_, ?_, ?_⟩
    · unfold checkWalletMigrated
      rw [hkeys, checkWalletMigrated.loop_out_skip w pre (k :: post) hpre,
        checkWalletMigrated.loop_out_absent w k post habs]
      unfold absentLegacy
      by_cases hz : IsZeroAddress oa = true <;> simp [hl, hz]
    · unfold presentLegacy absentLegacy
      simp [hl]
    · unfold checkWalletMigrated
      rw [hkeys, checkWalletMigrated.loop_legacy_skip w pre (k :: post) hpre,
        checkWalletMigrated.loop_legacy_absent w k post habs]
  have allPresent : (∀ k ∈ checkWalletMigrated.keys, presentNew w k = true) →
      (checkWalletMigrated w).out = .ret none ∧
      (checkWalletMigrated w).trace.filter Event.isLegacyRead = [] := by
    intro hall
    have h1 := checkWalletMigrated.loop_out_skip w checkWalletMigrated.keys [] hall
    have h2 := checkWalletMigrated.loop_legacy_skip w checkWalletMigrated.keys [] hall
    rw [List.append_nil] at h1 h2
    exact ⟨h1, h2⟩
  refine ⟨⟨?_, fun hall => (allPresent hall).1⟩, fun hall => (allPresent hall).2,
    exists_first_absent w _, first⟩
  intro hnil
  by_contra hnot
  obtain ⟨pre, k, post, hkeys, hpre, hk⟩ := exists_first_absent w _ hnot
  have := (first pre k post hkeys hpre hk).1
  rw [hnil] at this
  simp at this

/-- Witness of `checkWalletMigrated_decided_by_first_absent`: in
`halfMigratedWorld` all reads succeed, the operator is the first absent key
and it is present in the legacy store; the check reports a wallet that is not
migrated after reading the legacy store for the operator only. -/
theorem checkWalletMigrated_decided_by_first_absent_witness :
    (checkWalletMigrated halfMigratedWorld).out = .ret (some notMigratedError) ∧
    (checkWalletMigrated halfMigratedWorld).trace.filter Event.isLegacyRead =
      [.legacyGetAddrs .OperatorKey] ∧
    ((checkWalletMigrated sampleWorld).out = .ret none ↔
      ∀ k ∈ checkWalletMigrated.keys, presentNew sampleWorld k = true) :=
  have hhalf : readsSucceed halfMigratedWorld :=
    ⟨fun k => by cases k <;> exact ⟨_, rfl⟩, fun k => by cases k <;> exact ⟨_, rfl⟩⟩
  have hsample : readsSucceed sampleWorld :=
    ⟨fun k => by cases k <;> exact ⟨_, rfl⟩, fun k => ⟨_, rfl⟩⟩
  have h := (checkWalletMigrated_decided_by_first_absent halfMigratedWorld hhalf).2.2.2
    [.OwnerKey] .OperatorKey [.RequestKey] rfl
    (by intro k hk; simp at hk; subst hk; rfl) rfl
  ⟨h.1, h.2.2, (checkWalletMigrated_decided_by_first_absent sampleWorld hsample).1⟩

end Glif
